import Mathlib

/-!
Verification model of `guru/sync.py`: the node registry, the tree
operations, the classification / repair / HTML-normalization pipeline
behind `Sync.zip`, and the `clean_up_html` transform.

Python strings are modelled as `String` (operating on their character
lists).  Stateful Python code is modelled by explicit registry passing;
a raised Python exception is an `Except.error` carrying the message
together with the registry as it stands at the raise site (Python does
not roll back mutations made before a raise).  Loops whose termination
depends on the graph being acyclic are given explicit fuel; running out
of fuel is `Option.none`.  External collaborators are modelled as
follows: the `hashlib.md5` digest and `urllib`'s `urljoin` are
parameters of the embedding (`PyCtx`) because no claim depends on the
concrete digest, with executable stand-ins used for closed evaluations;
BeautifulSoup's `html.parser` round-trip is modelled directly on
well-formed fragments, which covers every piece of HTML exercised here.
-/

namespace GuruSync

/-! ## Python string primitives -/

/-- Characters Python's `str.strip()` removes. -/
def pyWhitespace (c : Char) : Bool :=
  c = ' ' ∨ c = '\t' ∨ c = '\n' ∨ c = '\r' ∨ c = '\x0b' ∨ c = '\x0c'

/-- Python `str.strip()`. -/
def pyStrip (s : String) : String :=
  ⟨((s.data.dropWhile pyWhitespace).reverse.dropWhile pyWhitespace).reverse⟩

/-- Does the first list start with the second? -/
def listStartsWith : List Char → List Char → Bool
  | _, [] => true
  | [], _ :: _ => false
  | c :: cs, p :: ps => c = p && listStartsWith cs ps

/-- Python `str.startswith`. -/
def pyStartsWith (s p : String) : Bool := listStartsWith s.data p.data

/-- Python `str.replace` on character lists: leftmost, non-overlapping,
scanning past each replacement (never rescanning replaced text).  The
fuel argument only bounds the recursion; every call site passes the
input's length, which the scan can never exhaust since each step
consumes at least one character. -/
def pyReplaceAux (pat rep : List Char) : Nat → List Char → List Char
  | _, [] => []
  | 0, s => s
  | fuel + 1, c :: rest =>
    if pat ≠ [] ∧ listStartsWith (c :: rest) pat then
      rep ++ pyReplaceAux pat rep fuel (rest.drop (pat.length - 1))
    else
      c :: pyReplaceAux pat rep fuel rest

/-- Python `str.replace` (used only with nonempty patterns). -/
def pyReplace (s pat rep : String) : String :=
  ⟨pyReplaceAux pat.data rep.data s.data.length s.data⟩

/-- `s.split(c)[0]`: everything before the first occurrence of `c`
(the whole string when `c` is absent). -/
def takeBeforeChar (s : String) (c : Char) : String :=
  ⟨s.data.takeWhile (· ≠ c)⟩

/-- `s.split(c)[-1]`: everything after the last occurrence of `c`
(the whole string when `c` is absent). -/
def takeAfterLastChar (s : String) (c : Char) : String :=
  ⟨(s.data.reverse.takeWhile (· ≠ c)).reverse⟩

/-- ASCII lower-casing, as `html.parser` applies to tag and attribute names. -/
def lowerChar (c : Char) : Char :=
  if 'A' ≤ c ∧ c ≤ 'Z' then Char.ofNat (c.toNat + 32) else c

/-- Lower-case a string. -/
def lowerStr (s : String) : String := ⟨s.data.map lowerChar⟩

/-! ## HTML documents

A parsed fragment, as produced by BeautifulSoup over `html.parser`:
text nodes and elements carrying an ordered attribute list. -/

/-- One node of a parsed HTML fragment. -/
inductive Html where
  | text (s : String)
  | tag (name : String) (attrs : List (String × String)) (children : List Html)
deriving Repr, Inhabited

/-- First value bound to `k` in an ordered association list
(Python `dict.get(k)`). -/
def alistGet (l : List (String × String)) (k : String) : Option String :=
  (l.find? (fun p => p.1 = k)).map (fun p => p.2)

/-- Python `dict[k] = v`: overwrite in place when the key exists (keeping
its position), append otherwise. -/
def alistSet (l : List (String × String)) (k v : String) : List (String × String) :=
  if l.any (fun p => p.1 = k) then
    l.map (fun p => if p.1 = k then (k, v) else p)
  else l ++ [(k, v)]

/-- Python `k in dict`. -/
def alistHas (l : List (String × String)) (k : String) : Bool :=
  l.any (fun p => p.1 = k)

/-- Python `del dict[k]`. -/
def alistDel (l : List (String × String)) (k : String) : List (String × String) :=
  l.filter (fun p => p.1 ≠ k)

/-- Void elements that `html.parser` closes immediately. -/
def voidElements : List String :=
  ["area", "base", "br", "col", "embed", "hr", "img", "input",
   "link", "meta", "param", "source", "track", "wbr"]

/-- Escaping BeautifulSoup applies when serializing text nodes. -/
def escText (s : String) : String :=
  pyReplace (pyReplace (pyReplace s "&" "&amp;") "<" "&lt;") ">" "&gt;"

/-- Escaping applied inside double-quoted attribute values. -/
def escAttr (s : String) : String :=
  pyReplace (pyReplace s "&" "&amp;") "\"" "&quot;"

/-- Concatenate a list of strings. -/
def concatStrings : List String → String
  | [] => ""
  | s :: t => s ++ concatStrings t

/-- The serialized attribute list of an element. -/
def serializeAttrs (attrs : List (String × String)) : String :=
  concatStrings (attrs.map (fun p => " " ++ p.1 ++ "=\"" ++ escAttr p.2 ++ "\""))

/-- `str(doc)`, modelling BeautifulSoup's output format.  The fuel bounds
the number of visited nodes; call sites pass a bound derived from the
document's source length, which a parsed document can never exhaust. -/
def serializeL (fuel : Nat) (l : List Html) : String :=
  match fuel, l with
  | 0, _ => ""
  | _, [] => ""
  | fuel + 1, .text s :: t => escText s ++ serializeL fuel t
  | fuel + 1, .tag name attrs children :: t =>
    (if voidElements.contains name then
      "<" ++ name ++ serializeAttrs attrs ++ "/>"
    else
      "<" ++ name ++ serializeAttrs attrs ++ ">" ++ serializeL fuel children
        ++ "</" ++ name ++ ">") ++ serializeL fuel t

/-- Decode the HTML entities arising in the fragments exercised here. -/
def decodeEntities (s : String) : String :=
  pyReplace (pyReplace (pyReplace (pyReplace s "&lt;" "<") "&gt;" ">") "&quot;" "\"") "&amp;" "&"

/-- Characters allowed in tag and attribute names. -/
def isNameChar (c : Char) : Bool :=
  c.isAlpha ∨ c.isDigit ∨ c = '-' ∨ c = '_' ∨ c = ':'

/-- Skip whitespace. -/
def skipWs (cs : List Char) : List Char := cs.dropWhile pyWhitespace

/-- The apostrophe character (HTML quote). -/
def quoteChar : Char := Char.ofNat 39

/-- Parse one attribute (`name="v"`, single-quoted, unquoted, or bare). -/
def parseAttr (cs : List Char) : (String × String) × List Char :=
  let name := cs.takeWhile isNameChar
  let rest := cs.drop name.length
  match rest with
  | '=' :: q :: r =>
    if q = '"' ∨ q = quoteChar then
      let v := r.takeWhile (· ≠ q)
      ((lowerStr ⟨name⟩, decodeEntities ⟨v⟩), r.drop (v.length + 1))
    else
      let v := (q :: r).takeWhile (fun c => ¬ pyWhitespace c ∧ c ≠ '>')
      ((lowerStr ⟨name⟩, decodeEntities ⟨v⟩), (q :: r).drop v.length)
  | _ => ((lowerStr ⟨name⟩, ""), rest)

/-- Parse an attribute list up to `>` or `/>`. -/
def parseAttrsAux (fuel : Nat) (cs : List Char) : List (String × String) × List Char :=
  match fuel with
  | 0 => ([], cs)
  | fuel + 1 =>
    let cs := skipWs cs
    match cs with
    | [] => ([], [])
    | c :: _ =>
      if c = '>' ∨ c = '/' then ([], cs)
      else if isNameChar c then
        let (attr, rest) := parseAttr cs
        let (attrs, rest2) := parseAttrsAux fuel rest
        (attr :: attrs, rest2)
      else ([], cs)

/-- Consume a `</name>` close tag. -/
def consumeClose (cs : List Char) : List Char :=
  match cs with
  | '<' :: '/' :: r =>
    let n := r.takeWhile isNameChar
    let r2 := skipWs (r.drop n.length)
    match r2 with
    | '>' :: r3 => r3
    | _ => r2
  | _ => cs

/-- Recursive-descent model of `html.parser` (through BeautifulSoup) on
well-formed fragments: text, elements with quoted attributes, void
elements, matching close tags.  Every piece of HTML the claims exercise
lies in this fragment. -/
def parseNodes (fuel : Nat) (cs : List Char) : List Html × List Char :=
  match fuel with
  | 0 => ([], cs)
  | fuel + 1 =>
    match cs with
    | [] => ([], [])
    | '<' :: '/' :: _ => ([], cs)
    | '<' :: rest =>
      let nameCs := rest.takeWhile isNameChar
      if nameCs = [] then
        let (nodes, rest2) := parseNodes fuel rest
        (Html.text "<" :: nodes, rest2)
      else
        let name := lowerStr ⟨nameCs⟩
        let (attrs, rest2) := parseAttrsAux fuel (rest.drop nameCs.length)
        match rest2 with
        | '/' :: '>' :: r =>
          let (siblings, rest3) := parseNodes fuel r
          (Html.tag name attrs [] :: siblings, rest3)
        | '>' :: r =>
          if voidElements.contains name then
            let (siblings, rest3) := parseNodes fuel r
            (Html.tag name attrs [] :: siblings, rest3)
          else
            let (children, rest3) := parseNodes fuel r
            let rest4 := consumeClose rest3
            let (siblings, rest5) := parseNodes fuel rest4
            (Html.tag name attrs children :: siblings, rest5)
        | _ => ([Html.text ⟨cs⟩], [])
    | _ =>
      let txt := cs.takeWhile (· ≠ '<')
      let (nodes, rest2) := parseNodes fuel (cs.drop txt.length)
      (Html.text (decodeEntities ⟨txt⟩) :: nodes, rest2)

/-- `BeautifulSoup(html, "html.parser")`. -/
def parseHtml (s : String) : List Html :=
  (parseNodes (s.data.length + 1) s.data).1

/-! ## `clean_up_html` (source lines 69-131) -/

/-- Attribute allow-list of `clean_up_html`. -/
def attributesToKeep : List String :=
  ["style", "start", "href", "target", "rel", "title", "src", "alt", "height", "width"]

/-- Pass 1: drop all attributes outside the allow-list, on every element
(fuel as in `serializeL`). -/
def stripAttrsL (fuel : Nat) (l : List Html) : List Html :=
  match fuel, l with
  | 0, l => l
  | _, [] => []
  | fuel + 1, .text s :: t => .text s :: stripAttrsL fuel t
  | fuel + 1, .tag name attrs children :: t =>
    Html.tag name (attrs.filter (fun p => attributesToKeep.contains p.1))
      (stripAttrsL fuel children) :: stripAttrsL fuel t

/-- Passes 2-3: inside table cells, flatten each list item into a
`<br>`-prefixed "- " line (then unwrap it) and unwrap the surrounding
`ul`/`ol`.  `inTd` says whether some strict ancestor is a `td`. -/
def tdListL (fuel : Nat) (inTd : Bool) (l : List Html) : List Html :=
  match fuel, l with
  | 0, l => l
  | _, [] => []
  | fuel + 1, .text s :: t => .text s :: tdListL fuel inTd t
  | fuel + 1, .tag name attrs children :: t =>
    let newChildren := tdListL fuel (inTd ∨ name = "td") children
    (if inTd ∧ name = "li" then
      Html.tag "br" [] [] :: Html.text "- " :: newChildren
    else if inTd ∧ (name = "ul" ∨ name = "ol") then
      newChildren
    else
      [Html.tag name attrs newChildren]) ++ tdListL fuel inTd t

/-- Pass 4: remove `colgroup`, `table caption`, `script`, `style` subtrees.
`inTable` says whether some strict ancestor is a `table`. -/
def decomposeL (fuel : Nat) (inTable : Bool) (l : List Html) : List Html :=
  match fuel, l with
  | 0, l => l
  | _, [] => []
  | fuel + 1, .text s :: t => .text s :: decomposeL fuel inTable t
  | fuel + 1, .tag name attrs children :: t =>
    (if name = "colgroup" ∨ name = "script" ∨ name = "style" then []
    else if inTable ∧ name = "caption" then []
    else [Html.tag name attrs
      (decomposeL fuel (inTable ∨ name = "table") children)]) ++
      decomposeL fuel inTable t

/-- `_parse_style`'s split of one `key: value` pair via `pair.find(":")`:
with no colon Python yields `pair[0:-1]` as key and the whole pair as
value. -/
def parseStylePair (pair : List Char) : String × String :=
  match pair.findIdx? (· = ':') with
  | some i => (pyStrip ⟨pair.take i⟩, pyStrip ⟨pair.drop (i + 1)⟩)
  | none => (pyStrip ⟨pair.take (pair.length - 1)⟩, pyStrip ⟨pair⟩)

/-- Python `str.split(sep)` for a one-character separator. -/
def splitOnChar : List Char → Char → List (List Char)
  | [], _ => [[]]
  | c :: rest, sep =>
    if c = sep then [] :: splitOnChar rest sep
    else
      match splitOnChar rest sep with
      | [] => [[c]]
      | g :: gs => (c :: g) :: gs

/-- `_parse_style` (source lines 53-64). -/
def parseStyle (text : String) : List (String × String) :=
  (splitOnChar text.data ';').foldl
    (fun acc pair =>
      let kv := parseStylePair pair
      alistSet acc kv.1 kv.2) []

/-- Join strings with a separator (Python `sep.join`). -/
def joinSep (sep : String) : List String → String
  | [] => ""
  | [x] => x
  | x :: xs => x ++ sep ++ joinSep sep xs

/-- `_format_style` (source lines 66-67). -/
def formatStyle (values : List (String × String)) : String :=
  joinSep ";" (values.map (fun p => p.1 ++ ":" ++ p.2))

/-- Style property allow-list of `clean_up_html`. -/
def styleAttrsToKeep : List String :=
  ["background", "background-color", "color", "font-style", "font-weight",
   "text-decoration"]

/-- The filtered replacement of one `style` attribute value, with the
whole attribute dropped when filtering leaves it blank. -/
def filterStyleAttrs (attrs : List (String × String)) : List (String × String) :=
  if alistHas attrs "style" then
    let values := parseStyle ((alistGet attrs "style").getD "")
    let kept := values.filter (fun p => styleAttrsToKeep.contains p.1)
    let formatted := formatStyle kept
    if pyStrip formatted = "" then alistDel attrs "style"
    else alistSet attrs "style" formatted
  else attrs

/-- Pass 5: keep only allow-listed style properties; drop the attribute
entirely when the filtered value is blank. -/
def styleL (fuel : Nat) (l : List Html) : List Html :=
  match fuel, l with
  | 0, l => l
  | _, [] => []
  | fuel + 1, .text s :: t => .text s :: styleL fuel t
  | fuel + 1, .tag name attrs children :: t =>
    Html.tag name (filterStyleAttrs attrs) (styleL fuel children) :: styleL fuel t

/-- Pass 6: unwrap spans whose `style` attribute is missing or falsy. -/
def spanL (fuel : Nat) (l : List Html) : List Html :=
  match fuel, l with
  | 0, l => l
  | _, [] => []
  | fuel + 1, .text s :: t => .text s :: spanL fuel t
  | fuel + 1, .tag name attrs children :: t =>
    let newChildren := spanL fuel children
    (if name = "span" ∧ (alistGet attrs "style").getD "" = "" then
      newChildren
    else [Html.tag name attrs newChildren]) ++ spanL fuel t

/-- Fuel large enough for every pass over a document parsed from `s`
(the parse yields at most one node per character and the only pass that
grows the document, the `td li` flattening, at most triples it). -/
def docFuel (s : String) : Nat := 4 * s.data.length + 16

/-- `clean_up_html` (source lines 69-131): parse, strip attributes, flatten
lists inside table cells, remove junk elements, filter style attributes,
unwrap bare spans, serialize, then undo literal backslash escapes
(`str(doc).replace("\x5c\x5cn", "\n").replace("\x5c\x5c\x27", "\x27")`). -/
def clean_up_html (html : String) : String :=
  let fl := docFuel html
  let doc := parseHtml html
  let doc := stripAttrsL fl doc
  let doc := tdListL fl false doc
  let doc := decomposeL fl false doc
  let doc := styleL fl doc
  let doc := spanL fl doc
  pyReplace (pyReplace (serializeL fl doc) "\x5c\x6e" "\n") "\x5c\x27" "\x27"

/-! ## Node types and the registry -/

/-- The five node type constants (source lines 22-26). -/
inductive NodeType where
  | NONE
  | BOARD_GROUP
  | BOARD
  | SECTION
  | CARD
deriving Repr, DecidableEq, Inhabited

export NodeType (NONE BOARD_GROUP BOARD SECTION CARD)

/-- One `SyncNode` (source lines 293-305).  Parent and child edges are
stored as id lists into the registry: the arena view of Python's object
references, as §9 of the spec itself recommends.  `tags` is a list with
`[]` standing for Python's falsy `None`/empty cases, which the engine
never distinguishes. -/
structure SyncNode where
  id : String
  url : String
  title : String
  desc : String
  content : String
  children : List String
  parents : List String
  type : NodeType
  tags : List String
deriving Repr, DecidableEq, Inhabited

/-- The registry `Sync.nodes`, in insertion order. -/
abbrev Registry := List SyncNode

/-- Node lookup (`for n in self.nodes: if n.id == id`): first match. -/
def findNode (g : Registry) (id : String) : Option SyncNode :=
  g.find? (fun n => n.id = id)

/-- Mutate the node the lookup finds: rewrite the first node carrying the
id (Python mutates the looked-up object in place). -/
def updateNode : Registry → String → (SyncNode → SyncNode) → Registry
  | [], _, _ => []
  | n :: rest, id, f =>
    if n.id = id then f n :: rest else n :: updateNode rest id f

/-- External-collaborator parameters: the md5 hex digest (`hashlib`) and
`urljoin` (`urllib`).  No claim depends on the concrete digest beyond
its determinism, so both stay abstract, instantiated with executable
stand-ins for closed evaluations. -/
structure PyCtx where
  md5hex : String → String
  urljoin : String → String → String

/-- `_url_to_id` (source lines 31-40): the digest of the whole address,
with `.<ext>` appended when the trailing dot-segment of the address
(before any query string) is shorter than five characters. -/
def urlToId (ctx : PyCtx) (url : String) (includeExtension : Bool) : String :=
  let id := ctx.md5hex url
  if includeExtension then
    let pre := takeBeforeChar url '?'
    let ext := takeAfterLastChar pre '.'
    if ext.data.length < 5 then id ++ "." ++ ext else id
  else id

/-- `_is_local` (source lines 45-51). -/
def isLocal (urlOrPath : String) : Bool :=
  if pyStartsWith urlOrPath "http" ∨ pyStartsWith urlOrPath "mailto:" then false
  else if pyStartsWith urlOrPath "//" then false
  else true

/-- Title normalization in `Sync.node` (source lines 630-633): strip,
then truncate to 197 characters plus an ellipsis when longer than 200. -/
def truncTitle (title : String) : String :=
  let t := pyStrip title
  if 200 < t.data.length then (⟨t.data.take 197⟩ : String) ++ "..." else t

/-- `Sync.node` (source lines 602-653): derive the id from the url's
digest when only a url is given, look up by id, create the node when
absent, then merge the truthy arguments field by field; raw content
goes through `clean_up_html` unless `clean_html` is false.  `desc` is
only ever used at creation.  Returns the registry and the id of the
returned node.  Note that the missing-id-and-url case raises nothing:
the method looks up, and silently creates, a node with id `""`. -/
def syncNode (ctx : PyCtx) (g : Registry) (id url title content desc : String)
    (tags : List String) (ty : Option NodeType) (cleanHtml : Bool) :
    Registry × String :=
  let id := if url ≠ "" ∧ id = "" then urlToId ctx url false else id
  let existing := findNode g id
  let title := if title ≠ "" then truncTitle title else title
  let g :=
    match existing with
    | some _ => g
    | none => g ++ [{ id := id, url := "", title := title, desc := desc,
                      content := content, children := [], parents := [],
                      type := NodeType.NONE, tags := tags }]
  let g := if url ≠ "" then updateNode g id (fun n => { n with url := url }) else g
  let g := if title ≠ "" then updateNode g id (fun n => { n with title := title }) else g
  let g :=
    if content ≠ "" then
      updateNode g id (fun n =>
        { n with content := if cleanHtml then clean_up_html content else content })
    else g
  let g :=
    match ty with
    | some t => updateNode g id (fun n => { n with type := t })
    | none => g
  let g := if tags ≠ [] then updateNode g id (fun n => { n with tags := tags }) else g
  (g, id)

/-! ## Tree operations -/

/-- A raised Python exception: the message together with the registry as
it stands at the raise site (Python does not roll back mutations made
before a raise). -/
abbrev PyErr := String × Registry

/-- Effect type of the engine's stateful code: `none` models exhausting
the fuel that bounds loops the source runs without bound (they terminate
exactly on acyclic data), `Except.error` a propagating exception. -/
def PyM (α : Type) : Type := Option (Except PyErr α)

instance : Monad PyM where
  pure a := some (Except.ok a)
  bind x f :=
    match x with
    | none => none
    | some (Except.error e) => some (Except.error e)
    | some (Except.ok a) => f a

/-- The parent ids of a node (empty for ids the registry does not know,
a case the source never exercises). -/
def parentsOf (g : Registry) (id : String) : List String :=
  ((findNode g id).map (fun n => n.parents)).getD []

/-- `SyncNode.ancestors` (source lines 328-334): the worklist loop
`result += result[index].parents; index += 1`, which may repeat ids when
paths converge. -/
def ancestorsAux (g : Registry) : Nat → List String → Nat → Option (List String)
  | 0, result, index => if index < result.length then none else some result
  | fuel + 1, result, index =>
    if h : index < result.length then
      ancestorsAux g fuel (result ++ parentsOf g (result.get ⟨index, h⟩)) (index + 1)
    else some result

/-- `ancestors` of a node. -/
def pyAncestors (g : Registry) (n : SyncNode) (fuel : Nat) : Option (List String) :=
  ancestorsAux g fuel n.parents 0

/-- The cycle error message of `add_child` (source lines 347-349). -/
def cycleMsg (child self : SyncNode) : String :=
  "adding \x27" ++ (if child.title ≠ "" then child.title else child.id) ++
  "\x27 as a child of \x27" ++ (if self.title ≠ "" then self.title else self.id) ++
  "\x27 would create a cycle"

/-- `SyncNode.add_child` (source lines 336-361): raise a `RuntimeError`
when the child's id occurs among the transitive ancestors (checked
before any mutation), do nothing when the child is already a child,
otherwise append the parent to `child.parents` and insert the child's
id at the front or back of `children`. -/
def add_child (g : Registry) (selfId childId : String) (first : Bool) (fuel : Nat) :
    PyM Registry :=
  match findNode g selfId, findNode g childId with
  | some self, some child =>
    match pyAncestors g self fuel with
    | none => none
    | some anc =>
      if childId ∈ anc then some (Except.error (cycleMsg child self, g))
      else if childId ∈ self.children then some (Except.ok g)
      else
        let g2 := updateNode g childId (fun n => { n with parents := n.parents ++ [selfId] })
        let g3 :=
          if first then
            updateNode g2 selfId (fun n => { n with children := childId :: n.children })
          else
            updateNode g2 selfId (fun n => { n with children := n.children ++ [childId] })
        some (Except.ok g3)
  | _, _ => some (Except.ok g)

/-- Remove the first occurrence (Python `list.remove`; the source never
calls it on a list lacking the element). -/
def removeFirst : List String → String → List String
  | [], _ => []
  | x :: xs, y => if x = y then xs else x :: removeFirst xs y

/-- `SyncNode.detach` (source lines 312-320): remove the node from every
parent's `children`, then clear its `parents`. -/
def detach (g : Registry) (id : String) : Registry :=
  let ps := parentsOf g id
  let g2 := ps.foldl (fun acc pid =>
    updateNode acc pid (fun p => { p with children := removeFirst p.children id })) g
  updateNode g2 id (fun n => { n with parents := [] })

/-- `SyncNode.move_to` (source lines 322-326): `detach`, then become a
child of the new parent. -/
def move_to (g : Registry) (id newParentId : String) (fuel : Nat) : PyM Registry :=
  add_child (detach g id) newParentId id false fuel

/-! ## Traversal engine (source lines 133-147)

The recursive `traverse_tree` is modelled as a small-step task list (the
explicit call stack of the recursion): a `visit` task runs the pre-order
callback, then pushes its children (read after that call, as
`node.children[0:]` is) followed by an optional `postVisit` task. -/

/-- A traversal callback: registry, node id, parent id, depth, post flag. -/
abbrev Callback := Registry → String → Option String → Nat → Bool → PyM Registry

/-- One pending traversal step. -/
inductive TravTask where
  | visit (nid : String) (parent : Option String) (depth : Nat) (ensure : Bool)
  | postVisit (nid : String) (parent : Option String) (depth : Nat)
deriving Repr

/-- Run the traversal task list.  `ensure` models `child = sync.node(id)`
in the child loop, which silently creates a bare node for ids the
registry does not know. -/
def traverseList (ctx : PyCtx) (f : Callback) (post : Bool) :
    Nat → Registry → List TravTask → PyM Registry
  | 0, _, _ => none
  | _, g, [] => pure g
  | fuel + 1, g, TravTask.visit nid parent depth ensure :: rest => do
    let g1 := if ensure then (syncNode ctx g nid "" "" "" "" [] none true).1 else g
    let g2 ← f g1 nid parent depth false
    let childIds := ((findNode g2 nid).map (fun n => n.children)).getD []
    let tasks := childIds.map (fun cid => TravTask.visit cid (some nid) (depth + 1) true)
    let rest2 := if post then TravTask.postVisit nid parent depth :: rest else rest
    traverseList ctx f post fuel g2 (tasks ++ rest2)
  | fuel + 1, g, TravTask.postVisit nid parent depth :: rest => do
    let g2 ← f g nid parent depth true
    traverseList ctx f post fuel g2 rest

/-- The root loop of `traverse_tree`: walk `sync.nodes` by index (the
Python `for` iterates the live list, so nodes appended mid-loop are
seen), starting a rooted traversal at every node without parents. -/
def traverseRoots (ctx : PyCtx) (f : Callback) (post : Bool) :
    Nat → Registry → Nat → PyM Registry
  | 0, _, _ => none
  | fuel + 1, g, i =>
    match g.get? i with
    | none => pure g
    | some n => do
      let g2 ←
        if n.parents = [] then
          traverseList ctx f post fuel g [TravTask.visit n.id none 0 false]
        else pure g
      traverseRoots ctx f post fuel g2 (i + 1)

/-! ## Classifier: `assign_types` (source lines 173-227) -/

/-- The node type a registry currently assigns to an id. -/
def typeOf (g : Registry) (id : String) : NodeType :=
  ((findNode g id).map (fun n => n.type)).getD NONE

/-- `assign_types` as a traversal callback body.  `favorSections` selects
Policy B; Policy A ("favor boards") is the `else` branch, which is also
taken when both keyword arguments are `None` (`favor_boards` itself is
never read).  The parent's current type is read from the registry at
call time, as Python reads the mutated parent object. -/
def assignTypes (favorSections : Bool) (g : Registry) (nid : String)
    (pid : Option String) (depth : Nat) (post : Bool) : Registry :=
  match findNode g nid with
  | none => g
  | some n =>
    let pt := (pid.bind (fun p => findNode g p)).map (fun x => x.type)
    if favorSections then
      if post then
        if n.type = BOARD ∧
            n.children.any (fun cid => typeOf g cid = BOARD) then
          updateNode g nid (fun m => { m with type := BOARD_GROUP })
        else g
      else
        if n.children = [] ∧ pid = none ∧ n.content ≠ "" then
          updateNode g nid (fun m => { m with type := CARD })
        else if n.children ≠ [] ∧ depth = 0 then
          updateNode g nid (fun m => { m with type := BOARD })
        else if n.children = [] then
          updateNode g nid (fun m => { m with type := CARD })
        else if 2 < depth then
          updateNode g nid (fun m => { m with type := CARD })
        else if pt = some BOARD ∧ depth = 1 then
          updateNode g nid (fun m => { m with type := SECTION })
        else if pt = some SECTION ∧ depth = 2 then
          updateNode (updateNode g (pid.getD "") (fun m => { m with type := BOARD }))
            nid (fun m => { m with type := SECTION })
        else
          updateNode g nid (fun m => { m with type := CARD })
    else
      if post then g
      else
        if n.children = [] ∧ pid = none ∧ n.content ≠ "" then
          updateNode g nid (fun m => { m with type := CARD })
        else if depth = 0 then
          updateNode g nid (fun m => { m with type := BOARD })
        else if n.children = [] then
          updateNode g nid (fun m => { m with type := CARD })
        else if 2 < depth then
          updateNode g nid (fun m => { m with type := CARD })
        else if pt = some BOARD ∧ depth = 1 then
          updateNode (updateNode g nid (fun m => { m with type := BOARD }))
            (pid.getD "") (fun m => { m with type := BOARD_GROUP })
        else if pt = some BOARD ∧ depth = 2 then
          updateNode g nid (fun m => { m with type := SECTION })
        else if pt = some BOARD_GROUP then
          updateNode g nid (fun m => { m with type := BOARD })
        else g

/-- `assign_types` wrapped as a traversal callback. -/
def assignTypesCB (favorSections : Bool) : Callback :=
  fun g nid pid depth post => pure (assignTypes favorSections g nid pid depth post)

/-! ## Repairer: `insert_nodes` (source lines 229-290) -/

/-- `insert_nodes` for one visited node: a contentful board group gets a
synthetic content board holding a synthetic content card; a contentful
board or section gets a synthetic content card as first child; a card
sitting directly under a board group is moved into a synthetic wrapper
board spliced in at the front. -/
def insertNodesStep (ctx : PyCtx) (fuel : Nat) (g : Registry) (nid : String)
    (pid : Option String) : PyM Registry :=
  match findNode g nid with
  | none => pure g
  | some n =>
    if n.content ≠ "" ∧ n.type = BOARD_GROUP then
      let boardId := n.id ++ "_content_board"
      let contentId := n.id ++ "_content"
      let g2 := (syncNode ctx g boardId n.url (n.title ++ " Content") "" "" []
        (some BOARD) true).1
      do
        let g3 ← add_child g2 nid boardId true fuel
        let g4 := (syncNode ctx g3 contentId n.url n.title n.content "" []
          (some CARD) true).1
        add_child g4 boardId contentId false fuel
    else if n.content ≠ "" ∧ (n.type = BOARD ∨ n.type = SECTION) then
      let contentId := n.id ++ "_content"
      let g2 := (syncNode ctx g contentId n.url n.title n.content "" []
        (some CARD) true).1
      add_child g2 nid contentId true fuel
    else
      match pid with
      | some p =>
        if n.type = CARD ∧ typeOf g p = BOARD_GROUP then
          let contentId := n.id ++ "_content_board"
          let contentTitle := n.title ++ " Content"
          let g2 := (syncNode ctx g contentId "" contentTitle "" "" []
            (some BOARD) true).1
          do
            let g3 ← move_to g2 nid contentId fuel
            add_child g3 p contentId true fuel
        else pure g
      | none => pure g

/-- `insert_nodes` wrapped as a traversal callback. -/
def insertNodesCB (ctx : PyCtx) (fuel : Nat) : Callback :=
  fun g nid pid _depth _post => insertNodesStep ctx fuel g nid pid

/-! ## Content normalizer: `check_element` and `html_cleanup`
(source lines 386-504) -/

/-- A `download_func` capability: returns a success flag or raises. -/
abbrev DL := String → String → Except Unit Bool

/-- A `compare_links` comparator. -/
abbrev Cmp := String → String → Bool

/-- `Sync.RESOURCE_PATH % (self.id, resource_id)` (source line 566). -/
def resourcePath (folder syncId rid : String) : String :=
  folder ++ syncId ++ "/resources/" ++ rid

/-- State threaded through one `html_cleanup` run: the per-card rewrite
cache `url_map` and the sync-wide `resources` map. -/
structure CEState where
  urlMap : List (String × String)
  resources : List (String × String)
deriving Repr

/-- `check_element` (source lines 404-470) on one element's attribute:
the element's new attributes, the updated caches, and whether the value
changed (the function's truthy return).  A downloader raise propagates. -/
def checkElement (ctx : PyCtx) (folder syncId selfUrl : String) (dl : Option DL)
    (st : CEState) (attrs : List (String × String)) (attr : String) :
    Except Unit (List (String × String) × CEState × Bool) :=
  let url := (alistGet attrs attr).getD ""
  if pyStartsWith url "data:" ∨ pyStartsWith url "mailto:" then
    Except.ok (attrs, st, false)
  else
    let initial := url
    match alistGet st.urlMap initial with
    | some v => Except.ok (alistSet attrs attr v, st, true)
    | none =>
      let absoluteUrl := ctx.urljoin selfUrl url
      let resourceId := urlToId ctx absoluteUrl true
      let finish := fun (attrs2 : List (String × String)) (st2 : CEState) =>
        let newVal := (alistGet attrs2 attr).getD ""
        if newVal ≠ initial then
          Except.ok (attrs2,
            { st2 with urlMap := alistSet st2.urlMap initial newVal }, true)
        else
          Except.ok (attrs2, st2, false)
      match dl with
      | some d =>
        match alistGet st.resources resourceId with
        | some path => finish (alistSet attrs attr path) st
        | none =>
          let filename := resourcePath folder syncId resourceId
          match d absoluteUrl filename with
          | Except.error e => Except.error e
          | Except.ok true =>
            finish (alistSet attrs attr ("resources/" ++ resourceId))
              { st with resources := alistSet st.resources resourceId filename }
          | Except.ok false => finish (alistSet attrs attr absoluteUrl) st
      | none =>
        if isLocal selfUrl ∧ isLocal url then
          let filename := resourcePath folder syncId resourceId
          finish (alistSet attrs attr ("resources/" ++ resourceId))
            { st with resources := alistSet st.resources resourceId filename }
        else if isLocal url then finish (alistSet attrs attr absoluteUrl) st
        else if pyStartsWith url "//" then
          finish (alistSet attrs attr ("https:" ++ url)) st
        else finish attrs st

/-- The `doc.select("[src]")` pass (source lines 474-476): every element
carrying a `src` attribute, in document order. -/
def srcPassL (ctx : PyCtx) (folder syncId selfUrl : String) (dl : Option DL) :
    Nat → CEState → Bool → List Html → Except Unit (List Html × CEState × Bool)
  | 0, st, upd, l => Except.ok (l, st, upd)
  | _, st, upd, [] => Except.ok ([], st, upd)
  | fuel + 1, st, upd, .text s :: t => do
    let (t2, st2, upd2) ← srcPassL ctx folder syncId selfUrl dl fuel st upd t
    pure (Html.text s :: t2, st2, upd2)
  | fuel + 1, st, upd, .tag name attrs children :: t => do
    let (attrs2, st2, upd2) ←
      if alistHas attrs "src" then do
        let (a2, s2, changed) ← checkElement ctx folder syncId selfUrl dl st attrs "src"
        pure (a2, s2, upd || changed)
      else pure (attrs, st, upd)
    let (children2, st3, upd3) ← srcPassL ctx folder syncId selfUrl dl fuel st2 upd2 children
    let (t2, st4, upd4) ← srcPassL ctx folder syncId selfUrl dl fuel st3 upd3 t
    pure (Html.tag name attrs2 children2 :: t2, st4, upd4)

/-- The match test of the link-conversion loop (source lines 490-491). -/
def linkMatches (cmp : Option Cmp) (absoluteUrl : String) (other : SyncNode) : Bool :=
  (match cmp with
   | some f => f other.url absoluteUrl
   | none => false) || other.url = absoluteUrl

/-- First registry node matching the resolved address
(`for other_node in self.sync.nodes: ... break`). -/
def linkMatch (cmp : Option Cmp) (nodes : Registry) (absoluteUrl : String) :
    Option SyncNode :=
  nodes.find? (linkMatches cmp absoluteUrl)

/-- The body of the `a[href]` loop (source lines 480-501) for one link:
skip empty hrefs, rewrite doc-to-doc links to internal `cards/<id>`
references (first registry match wins, and the link is then never
checked as an attachment), otherwise fall through to `check_element`. -/
def processLink (ctx : PyCtx) (folder syncId selfUrl : String) (dl : Option DL)
    (cmp : Option Cmp) (nodes : Registry) (st : CEState)
    (attrs : List (String × String)) :
    Except Unit (List (String × String) × CEState × Bool) :=
  let href := (alistGet attrs "href").getD ""
  if href = "" then Except.ok (attrs, st, false)
  else
    let absoluteUrl := ctx.urljoin selfUrl href
    match linkMatch cmp nodes absoluteUrl with
    | some m => Except.ok (alistSet attrs "href" ("cards/" ++ m.id), st, true)
    | none => checkElement ctx folder syncId selfUrl dl st attrs "href"

/-- The `doc.select("a[href]")` pass. -/
def linkPassL (ctx : PyCtx) (folder syncId selfUrl : String) (dl : Option DL)
    (cmp : Option Cmp) (nodes : Registry) :
    Nat → CEState → Bool → List Html → Except Unit (List Html × CEState × Bool)
  | 0, st, upd, l => Except.ok (l, st, upd)
  | _, st, upd, [] => Except.ok ([], st, upd)
  | fuel + 1, st, upd, .text s :: t => do
    let (t2, st2, upd2) ← linkPassL ctx folder syncId selfUrl dl cmp nodes fuel st upd t
    pure (Html.text s :: t2, st2, upd2)
  | fuel + 1, st, upd, .tag name attrs children :: t => do
    let (attrs2, st2, upd2) ←
      if name = "a" ∧ alistHas attrs "href" then do
        let (a2, s2, changed) ← processLink ctx folder syncId selfUrl dl cmp nodes st attrs
        pure (a2, s2, upd || changed)
      else pure (attrs, st, upd)
    let (children2, st3, upd3) ←
      linkPassL ctx folder syncId selfUrl dl cmp nodes fuel st2 upd2 children
    let (t2, st4, upd4) ← linkPassL ctx folder syncId selfUrl dl cmp nodes fuel st3 upd3 t
    pure (Html.tag name attrs2 children2 :: t2, st4, upd4)

/-- `SyncNode.html_cleanup` (source lines 386-504): for cards with
content, run the `[src]` pass then the `a[href]` pass over the parsed
content and store the re-serialized document when anything changed.
`convert_links` is accepted and ignored, as in the source, where the
guard that would read it is commented out. -/
def html_cleanup (ctx : PyCtx) (folder syncId : String) (dl : Option DL)
    (convertLinks : Bool) (cmp : Option Cmp) (g : Registry)
    (resources : List (String × String)) (nid : String) :
    Except Unit (Registry × List (String × String)) :=
  match findNode g nid with
  | none => Except.ok (g, resources)
  | some n =>
    if n.content = "" ∨ n.type ≠ CARD then Except.ok (g, resources)
    else
      let fl := docFuel n.content
      let doc := parseHtml n.content
      let st : CEState := { urlMap := [], resources := resources }
      do
        let (doc2, st2, upd2) ← srcPassL ctx folder syncId n.url dl fl st false doc
        let (doc3, st3, upd3) ←
          linkPassL ctx folder syncId n.url dl cmp g fl st2 upd2 doc2
        if upd3 then
          pure (updateNode g nid (fun m => { m with content := serializeL fl doc3 }),
            st3.resources)
        else
          pure (g, st3.resources)

/-- The post-processing loop of `Sync.zip` (source lines 729-737):
`html_cleanup` for every node in registry order, threading the resources
map; a raise propagates, carrying the registry at the raise site. -/
def cleanupAll (ctx : PyCtx) (folder syncId : String) (dl : Option DL)
    (convertLinks : Bool) (cmp : Option Cmp) :
    List String → Registry → List (String × String) →
    PyM (Registry × List (String × String))
  | [], g, res => pure (g, res)
  | nid :: rest, g, res =>
    match html_cleanup ctx folder syncId dl convertLinks cmp g res nid with
    | Except.error _ => some (Except.error ("download_func raised", g))
    | Except.ok (g2, res2) => cleanupAll ctx folder syncId dl convertLinks cmp rest g2 res2

/-- The in-memory pipeline of `Sync.zip` (source lines 712-737): the
`assign_types` traversal (pre and post order), the `insert_nodes`
traversal, then `html_cleanup` over every node.  File writing, archive
packaging, and the CSV log are external collaborators that do not touch
the graph.  Returns the final registry and resources map. -/
def zipModel (ctx : PyCtx) (folder syncId : String) (g : Registry)
    (dl : Option DL) (convertLinks : Bool) (cmp : Option Cmp)
    (favorSections : Bool) (fuel : Nat) :
    PyM (Registry × List (String × String)) := do
  let g1 ← traverseRoots ctx (assignTypesCB favorSections) true fuel g 0
  let g2 ← traverseRoots ctx (insertNodesCB ctx fuel) false fuel g1 0
  cleanupAll ctx folder syncId dl convertLinks cmp (g2.map (fun n => n.id)) g2 []

/-! ## Executable stand-ins for the abstract collaborators -/

/-- Executable stand-in for `urljoin`, covering the resolutions exercised
in closed evaluations: absolute http(s) references resolve to
themselves, the empty reference to the base, scheme-relative references
take the base's scheme, and remaining references replace everything
after the base's last slash. -/
def urljoinModel (base url : String) : String :=
  if pyStartsWith url "http://" ∨ pyStartsWith url "https://" then url
  else if url = "" then base
  else if pyStartsWith url "//" then
    (if pyStartsWith base "https" then "https:" else "http:") ++ url
  else (⟨(base.data.reverse.dropWhile (· ≠ '/')).reverse⟩ : String) ++ url

/-- Executable stand-in digest: deterministic and injective on the inputs
evaluated, which is all any claim uses of `hashlib.md5(...).hexdigest()`. -/
def digestModel (s : String) : String := "h_" ++ s

/-- The collaborator instantiation used in closed evaluations. -/
def ctx0 : PyCtx := { md5hex := digestModel, urljoin := urljoinModel }

/-! ## Accessors and concrete scenarios used by the claim statements -/

/-- The final registry of a successful pipeline run. -/
def finalNodes (m : PyM (Registry × List (String × String))) : Registry :=
  match m with
  | some (Except.ok p) => p.1
  | _ => []

/-- The final resources map of a successful pipeline run. -/
def finalResources (m : PyM (Registry × List (String × String))) :
    List (String × String) :=
  match m with
  | some (Except.ok p) => p.2
  | _ => []

/-- Did the pipeline call return without raising? -/
def pipelineCompleted (m : PyM (Registry × List (String × String))) : Bool :=
  match m with
  | some (Except.ok _) => true
  | _ => false

/-- The stored content of a node. -/
def nodeContent (g : Registry) (id : String) : String :=
  ((findNode g id).map (fun n => n.content)).getD ""

/-- The stored children of a node. -/
def nodeChildren (g : Registry) (id : String) : List String :=
  ((findNode g id).map (fun n => n.children)).getD []

/-- A downloader that always succeeds. -/
def dlAlways : DL := fun _ _ => Except.ok true

/-- A downloader that always declines (returns falsy). -/
def dlNever : DL := fun _ _ => Except.ok false

/-- A downloader that raises. -/
def dlRaise : DL := fun _ _ => Except.error ()

/-- Two root cards whose HTML reference the same absolute image address
(scenario of C1). -/
def regC1 : Registry :=
  [{ id := "c1", url := "", title := "C1", desc := "",
     content := "<img src=\"http://x/a.png\"/>",
     children := [], parents := [], type := NONE, tags := [] },
   { id := "c2", url := "", title := "C2", desc := "",
     content := "<img src=\"http://x/a.png\"/>",
     children := [], parents := [], type := NONE, tags := [] }]

/-- One root card with a relative image reference (scenario of C2). -/
def regC2 : Registry :=
  [{ id := "c1", url := "http://x/p/", title := "C1", desc := "",
     content := "<img src=\"a.png\"/>",
     children := [], parents := [], type := NONE, tags := [] }]

/-- A node typed BOARD_GROUP at ingestion, with content and no children
(scenario of C5). -/
def regC5 : Registry :=
  [{ id := "g", url := "", title := "G", desc := "", content := "<p>stuff</p>",
     children := [], parents := [], type := BOARD_GROUP, tags := [] }]

/-- The three-node chain of C6: root `r`, child `b` (url set), grandchild
`c` (content set). -/
def chainReg (burl ccontent : String) : Registry :=
  [{ id := "r", url := "", title := "Root", desc := "", content := "",
     children := ["b"], parents := [], type := NONE, tags := [] },
   { id := "b", url := burl, title := "B", desc := "", content := "",
     children := ["c"], parents := ["r"], type := NONE, tags := [] },
   { id := "c", url := "", title := "C", desc := "", content := ccontent,
     children := [], parents := ["b"], type := NONE, tags := [] }]

/-- The C6 chain as Policy A classifies it: `r` a board group, `b` a
board, `c` a card, structure untouched. -/
def chainTyped (burl ccontent : String) : Registry :=
  [{ id := "r", url := "", title := "Root", desc := "", content := "",
     children := ["b"], parents := [], type := BOARD_GROUP, tags := [] },
   { id := "b", url := burl, title := "B", desc := "", content := "",
     children := ["c"], parents := ["r"], type := BOARD, tags := [] },
   { id := "c", url := "", title := "C", desc := "", content := ccontent,
     children := [], parents := ["b"], type := CARD, tags := [] }]

/-- Registry for the C7 witness: a node whose url an incoming link
resolves to. -/
def nodeA7 : SyncNode :=
  { id := "a", url := "http://x/p", title := "A", desc := "", content := "",
    children := [], parents := [], type := CARD, tags := [] }

/-- Registry of the C7 witness. -/
def regC7 : Registry := [nodeA7]

/-- Parent node of the C8 witness graph (`a` is an ancestor of `b`). -/
def nodeA8 : SyncNode :=
  { id := "a", url := "", title := "A", desc := "", content := "",
    children := ["b"], parents := [], type := NONE, tags := [] }

/-- Child node of the C8 witness graph. -/
def nodeB8 : SyncNode :=
  { id := "b", url := "", title := "B", desc := "", content := "",
    children := [], parents := ["a"], type := NONE, tags := [] }

/-- The C8 witness graph. -/
def regC8 : Registry := [nodeA8, nodeB8]

/-- Two registry nodes sharing one origin url; the second is a card whose
HTML links to that url (counterexample scenario of C10). -/
def regC10 : Registry :=
  [{ id := "a", url := "http://x/p", title := "A", desc := "", content := "",
     children := [], parents := [], type := NONE, tags := [] },
   { id := "b", url := "http://x/p", title := "B", desc := "",
     content := "<a href=\"http://x/p\">t</a>",
     children := [], parents := [], type := CARD, tags := [] }]

/-- The node of the C10 witness: a card whose HTML links to its own url,
alone in its registry. -/
def nodeB10 : SyncNode :=
  { id := "b", url := "http://x/p", title := "B", desc := "",
    content := "<a href=\"http://x/p\">t</a>",
    children := [], parents := [], type := CARD, tags := [] }

/-- The pre-existing node of the C4 scenarios. -/
def nC4 : SyncNode :=
  { id := "a", url := "", title := "", desc := "", content := "",
    children := [], parents := [], type := NONE, tags := [] }

/-- Registry of the C4 scenarios: one node with an empty description. -/
def regC4 : Registry := [nC4]

/-- The content of a node after one `html_cleanup` call. -/
def cleanedContent (r : Except Unit (Registry × List (String × String)))
    (id : String) : String :=
  match r with
  | Except.ok p => nodeContent p.1 id
  | Except.error _ => ""

/-- The registry of a successful graph-mutating step. -/
def stepRegistry (m : PyM Registry) : Registry :=
  match m with
  | some (Except.ok g) => g
  | _ => []

/-- Did a graph-mutating step return without raising? -/
def stepOk (m : PyM Registry) : Bool :=
  match m with
  | some (Except.ok _) => true
  | _ => false

/-- A node typed BOARD_GROUP at repair time, with no children and no
parents (scenario of the amended C5, fields arbitrary). -/
def bgNode (gid url title desc content : String) (tags : List String) : SyncNode :=
  { id := gid, url := url, title := title, desc := desc, content := content,
    children := [], parents := [], type := BOARD_GROUP, tags := tags }

/-- A concrete registry where the repairer's board-group branch fires: an
unrelated node `z` sits in front of the board group `g`, so the lookups
of the step really scan past other registry entries. -/
def regW5 : Registry :=
  [{ id := "z", url := "", title := "", desc := "", content := "",
     children := [], parents := [], type := NONE, tags := [] },
   bgNode "g" "u" "T" "D" "<p>x</p>" []]

/-! # Theorems -/

/-! ## Registry lemmas -/

theorem updateNode_length (g : Registry) (id : String) (f : SyncNode → SyncNode) :
    (updateNode g id f).length = g.length := by
  induction g with
  | nil => rfl
  | cons n rest ih =>
    simp only [updateNode]
    by_cases h : n.id = id <;> simp [h, ih]

theorem findNode_cons (n : SyncNode) (rest : Registry) (id : String) :
    findNode (n :: rest) id = if n.id = id then some n else findNode rest id := by
  simp only [findNode, List.find?]
  by_cases h : n.id = id <;> simp [h]

theorem findNode_some_id (g : Registry) (id : String) (n : SyncNode)
    (h : findNode g id = some n) : n.id = id := by
  induction g with
  | nil => simp [findNode] at h
  | cons m rest ih =>
    rw [findNode_cons] at h
    by_cases hm : m.id = id
    · rw [if_pos hm] at h
      cases h
      exact hm
    · rw [if_neg hm] at h
      exact ih h

theorem findNode_updateNode_self (g : Registry) (id : String) (f : SyncNode → SyncNode)
    (hf : ∀ n, (f n).id = n.id) :
    findNode (updateNode g id f) id = (findNode g id).map f := by
  induction g with
  | nil => rfl
  | cons n rest ih =>
    simp only [updateNode]
    by_cases h : n.id = id
    · rw [if_pos h, findNode_cons, findNode_cons, hf n, if_pos h, if_pos h]
      rfl
    · rw [if_neg h, findNode_cons, findNode_cons, if_neg h, if_neg h, ih]

theorem findNode_updateNode_ne (g : Registry) (id id2 : String) (f : SyncNode → SyncNode)
    (hf : ∀ n, (f n).id = n.id) (h : id2 ≠ id) :
    findNode (updateNode g id2 f) id = findNode g id := by
  induction g with
  | nil => rfl
  | cons n rest ih =>
    simp only [updateNode]
    by_cases hn : n.id = id2
    · rw [if_pos hn, findNode_cons, findNode_cons, hf n, hn, if_neg h, if_neg h]
    · rw [if_neg hn, findNode_cons, findNode_cons, ih]

theorem findNode_append_left (g : Registry) (n : SyncNode) (id : String)
    (h : findNode g id = none) :
    findNode (g ++ [n]) id = if n.id = id then some n else none := by
  induction g with
  | nil => simp [findNode_cons, findNode]
  | cons m rest ih =>
    rw [findNode_cons] at h
    by_cases hm : m.id = id
    · simp [hm] at h
    · simp only [hm, if_false] at h
      simpa [List.cons_append, findNode_cons, hm] using ih h

theorem findNode_append_some (g : Registry) (n : SyncNode) (id : String)
    (v : SyncNode) (h : findNode g id = some v) :
    findNode (g ++ [n]) id = some v := by
  induction g with
  | nil => simp [findNode] at h
  | cons m rest ih =>
    rw [findNode_cons] at h
    by_cases hm : m.id = id
    · simp only [hm, if_true] at h
      simp [List.cons_append, findNode_cons, hm, h]
    · simp only [hm, if_false] at h
      simpa [List.cons_append, findNode_cons, hm] using ih h

theorem findNode_append_ne (g : Registry) (n : SyncNode) (id : String)
    (h : n.id ≠ id) :
    findNode (g ++ [n]) id = findNode g id := by
  induction g with
  | nil => simp [findNode_cons, findNode, h]
  | cons m rest ih =>
    by_cases hm : m.id = id
    · simp [List.cons_append, findNode_cons, hm]
    · simp [List.cons_append, findNode_cons, hm, ih]

theorem findNode_condUpdate (g : Registry) (id : String) (c : Prop)
    [Decidable c] (f : SyncNode → SyncNode) (hf : ∀ n, (f n).id = n.id) :
    findNode (if c then updateNode g id f else g) id =
      (findNode g id).map (fun n => if c then f n else n) := by
  by_cases h : c
  · rw [if_pos h, findNode_updateNode_self g id f hf]
    simp only [if_pos h]
  · rw [if_neg h]
    simp only [if_neg h]
    cases findNode g id <;> rfl

theorem findNode_condUpdate_ne (g : Registry) (id upId : String) (c : Prop)
    [Decidable c] (f : SyncNode → SyncNode) (hf : ∀ n, (f n).id = n.id)
    (h : upId ≠ id) :
    findNode (if c then updateNode g upId f else g) id = findNode g id := by
  by_cases hc : c
  · rw [if_pos hc, findNode_updateNode_ne g id upId f hf h]
  · rw [if_neg hc]

theorem strAppend_ne_empty (s t : String) (h : t ≠ "") : s ++ t ≠ "" := by
  intro he
  apply h
  have hd : s.data ++ t.data = [] := by
    have := congrArg String.data he
    simpa [String.data_append] using this
  rcases List.append_eq_nil.mp hd with ⟨_, h2⟩
  cases t
  simp_all

theorem strAppend_ne_self (s t : String) (h : t ≠ "") : s ++ t ≠ s := by
  intro he
  apply h
  have hd : s.data ++ t.data = s.data := by
    have := congrArg String.data he
    simpa [String.data_append] using this
  have h2 : t.data = [] := by
    have := congrArg List.length hd
    simp at this
    exact List.length_eq_zero.mp this
  cases t
  simp_all

theorem strAppend_left_ne (s t u : String) (h : t ≠ u) : s ++ t ≠ s ++ u := by
  intro he
  apply h
  have hd : s.data ++ t.data = s.data ++ u.data := by
    have := congrArg String.data he
    simpa [String.data_append] using this
  have h2 : t.data = u.data := List.append_cancel_left hd
  cases t
  cases u
  simp_all

theorem PyM_bind_ok {α β : Type} (a : α) (k : α → PyM β) :
    @Bind.bind PyM _ _ _ (some (Except.ok a)) k = k a := rfl

theorem PyM_bind_err {α β : Type} (e : PyErr) (k : α → PyM β) :
    @Bind.bind PyM _ _ _ (some (Except.error e)) k = some (Except.error e) := rfl

theorem PyM_pure_eq {α : Type} (a : α) :
    (pure a : PyM α) = some (Except.ok a) := rfl

theorem ancestorsAux_done (g : Registry) (fuel : Nat) (result : List String)
    (index : Nat) (h : ¬ index < result.length) :
    ancestorsAux g fuel result index = some result := by
  cases fuel <;> simp [ancestorsAux, h]

theorem pyAncestors_nil (g : Registry) (m : SyncNode) (fuel : Nat)
    (hm : m.parents = []) : pyAncestors g m fuel = some [] := by
  cases fuel <;> simp [pyAncestors, hm, ancestorsAux]

theorem pyAncestors_single (g : Registry) (m : SyncNode) (p : String)
    (fuel : Nat) (hm : m.parents = [p]) (hp : parentsOf g p = []) :
    pyAncestors g m (fuel + 1) = some [p] := by
  simp only [pyAncestors, hm, ancestorsAux]
  rw [dif_pos (by simp)]
  simp [hm, hp, ancestorsAux_done]

theorem add_child_fresh_first (g : Registry) (pid cid : String) (fuel : Nat)
    (p c : SyncNode) (anc : List String)
    (hp : findNode g pid = some p) (hc : findNode g cid = some c)
    (hanc : pyAncestors g p fuel = some anc)
    (hmem : cid ∉ anc) (hch : cid ∉ p.children) :
    add_child g pid cid true fuel =
      some (Except.ok (updateNode
        (updateNode g cid (fun m => { m with parents := m.parents ++ [pid] }))
        pid (fun m => { m with children := cid :: m.children }))) := by
  simp only [add_child, hp, hc, hanc]
  rw [if_neg hmem, if_neg hch]
  simp

theorem add_child_fresh_last (g : Registry) (pid cid : String) (fuel : Nat)
    (p c : SyncNode) (anc : List String)
    (hp : findNode g pid = some p) (hc : findNode g cid = some c)
    (hanc : pyAncestors g p fuel = some anc)
    (hmem : cid ∉ anc) (hch : cid ∉ p.children) :
    add_child g pid cid false fuel =
      some (Except.ok (updateNode
        (updateNode g cid (fun m => { m with parents := m.parents ++ [pid] }))
        pid (fun m => { m with children := m.children ++ [cid] }))) := by
  simp only [add_child, hp, hc, hanc]
  rw [if_neg hmem, if_neg hch]
  simp

/-! ## Claim theorems -/

/-- **C3** (the code at the failing input): `Sync.node` called with
neither id nor url raises nothing.  It looks up, silently creates and
appends a node whose id is the empty string, and returns it — so the
registry is changed, and no invalid-input error exists on this path. -/
theorem syncNode_no_id_no_url_creates_empty_id :
    (syncNode ctx0 [] "" "" "" "" "" [] none true).1 =
      [{ id := "", url := "", title := "", desc := "", content := "",
         children := [], parents := [], type := NONE, tags := [] }] ∧
    (syncNode ctx0 [] "" "" "" "" "" [] none true).2 = "" := by
  exact ⟨by decide, by decide⟩

/-- **C9** (the code at the failing input): `clean_up_html` is not
idempotent.  On the three-character text backslash-backslash-apostrophe
the first run unescapes the trailing backslash-apostrophe pair, leaving
backslash-apostrophe, and the second run unescapes again, leaving a bare
apostrophe: the final backslash-unescaping replaces re-apply to their
own output. -/
theorem clean_up_html_not_idempotent :
    clean_up_html "\x5c\x5c\x27" = "\x5c\x27" ∧
    clean_up_html (clean_up_html "\x5c\x5c\x27") = "\x27" ∧
    clean_up_html (clean_up_html "\x5c\x5c\x27") ≠ clean_up_html "\x5c\x5c\x27" := by
  exact ⟨by decide, by decide, by decide⟩

/-- **C8**: whenever the child's id occurs among the parent's transitive
ancestors (as computed by the source's worklist), `add_child` raises the
structural cycle error before any mutation: the registry carried at the
raise site is exactly the input registry, so `parent.children` and
`child.parents` are as before the call. -/
theorem addChild_cycle_rejected (g : Registry) (pid cid : String) (first : Bool)
    (fuel : Nat) (p c : SyncNode) (anc : List String)
    (hp : findNode g pid = some p) (hc : findNode g cid = some c)
    (ha : pyAncestors g p fuel = some anc) (hmem : cid ∈ anc) :
    add_child g pid cid first fuel = some (Except.error (cycleMsg c p, g)) := by
  simp only [add_child, hp, hc, ha]
  simp [hmem]

/-- Witness for C8 on the two-node graph where `a` is the parent of `b`:
adding `a` back underneath `b` raises and leaves the graph untouched. -/
theorem addChild_cycle_rejected_witness :
    findNode regC8 "b" = some nodeB8 ∧ findNode regC8 "a" = some nodeA8 ∧
    pyAncestors regC8 nodeB8 10 = some ["a"] ∧ "a" ∈ ["a"] ∧
    add_child regC8 "b" "a" false 10 =
      some (Except.error (cycleMsg nodeA8 nodeB8, regC8)) :=
  ⟨by decide, by decide, by decide, by decide,
    addChild_cycle_rejected regC8 "b" "a" false 10 nodeB8 nodeA8 ["a"]
      (by decide) (by decide) (by decide) (by decide)⟩

/-- **C2** (the code at the failing input): a downloader that raises
aborts the whole `Sync.zip` call — the exception propagates out of
`check_element`, there being no handler — while the same pipeline with a
downloader that merely returns falsy completes, rewrites the reference
to the resolved absolute address and records no resource.  The raising
capability is therefore NOT degraded to the absolute-address fallback. -/
theorem zip_downloader_raise_aborts :
    pipelineCompleted
      (zipModel ctx0 "/tmp/" "s1" regC2 (some dlRaise) true none false 30) = false ∧
    pipelineCompleted
      (zipModel ctx0 "/tmp/" "s1" regC2 (some dlNever) true none false 30) = true ∧
    nodeContent
      (finalNodes (zipModel ctx0 "/tmp/" "s1" regC2 (some dlNever) true none false 30))
      "c1" = "<img src=\"http://x/p/a.png\"/>" ∧
    finalResources
      (zipModel ctx0 "/tmp/" "s1" regC2 (some dlNever) true none false 30) = [] := by
  exact ⟨by decide, by decide, by decide, by decide⟩

/-- **C1** (the code at the failing input): two cards referencing the
same absolute image address, finalized with a successful downloader.
The resource map does get exactly one entry, and the first card is
rewritten to the relative path `resources/<rid>` — but the second card,
hitting the `resource_id in self.sync.resources` reuse branch, is
rewritten to the recorded local filesystem path
(`<folder><sync_id>/resources/<rid>`), not the relative path, so the two
cards' attributes differ. -/
theorem zip_shared_resource_divergence :
    finalResources
      (zipModel ctx0 "/tmp/" "s1" regC1 (some dlAlways) true none false 30) =
      [("h_http://x/a.png.png", "/tmp/s1/resources/h_http://x/a.png.png")] ∧
    nodeContent
      (finalNodes (zipModel ctx0 "/tmp/" "s1" regC1 (some dlAlways) true none false 30))
      "c1" = "<img src=\"resources/h_http://x/a.png.png\"/>" ∧
    nodeContent
      (finalNodes (zipModel ctx0 "/tmp/" "s1" regC1 (some dlAlways) true none false 30))
      "c2" = "<img src=\"/tmp/s1/resources/h_http://x/a.png.png\"/>" ∧
    ("<img src=\"resources/h_http://x/a.png.png\"/>" : String) ≠
      "<img src=\"/tmp/s1/resources/h_http://x/a.png.png\"/>" := by
  exact ⟨by decide, by decide, by decide, by decide⟩

/-- **C10 counterexample**: two registry nodes share the origin url the
link resolves to; `html_cleanup` of the second (the card itself)
rewrites the self-link to `cards/a` — the FIRST matching node in
registry order — and not to the card's own `cards/b` reference, so the
claim as stated fails. -/
theorem htmlCleanup_self_link_counterexample :
    cleanedContent (html_cleanup ctx0 "/tmp/" "s1" none true none regC10 [] "b") "b" =
      "<a href=\"cards/a\">t</a>" ∧
    ("<a href=\"cards/a\">t</a>" : String) ≠ "<a href=\"cards/b\">t</a>" := by
  exact ⟨by decide, by decide⟩

/-- **C7**: when some registry node's origin url matches a link's
resolved absolute address (by equality or the injected comparator), the
link-loop body rewrites the href to the internal reference
`cards/<id>` of the FIRST matching node in registry order, leaves the
caches — and so the resource map — untouched, and never consults the
downloader: the result is the same for every supplied downloader. -/
theorem processLink_internal_reference (ctx : PyCtx) (folder syncId selfUrl : String)
    (cmp : Option Cmp) (nodes : Registry) (st : CEState)
    (attrs : List (String × String)) (m : SyncNode)
    (hhref : (alistGet attrs "href").getD "" ≠ "")
    (hmatch : linkMatch cmp nodes
      (ctx.urljoin selfUrl ((alistGet attrs "href").getD "")) = some m) :
    ∀ dl : Option DL,
      processLink ctx folder syncId selfUrl dl cmp nodes st attrs =
        Except.ok (alistSet attrs "href" ("cards/" ++ m.id), st, true) := by
  intro dl
  simp only [processLink, hmatch, if_neg hhref]

/-- Witness for C7: a link to `http://x/p` inside a card based at
`http://x/b` is rewritten to `cards/a`, the registry node carrying that
url, even though a downloader able to fetch the address is supplied. -/
theorem processLink_internal_reference_witness :
    ((alistGet [("href", "http://x/p")] "href").getD "" ≠ "") ∧
    linkMatch none regC7
      (ctx0.urljoin "http://x/b" ((alistGet [("href", "http://x/p")] "href").getD ""))
      = some nodeA7 ∧
    processLink ctx0 "/tmp/" "s1" "http://x/b" (some dlAlways) none regC7
      ⟨[], []⟩ [("href", "http://x/p")] =
      Except.ok (alistSet [("href", "http://x/p")] "href" ("cards/" ++ nodeA7.id),
        ⟨[], []⟩, true) :=
  ⟨by decide, by decide,
    processLink_internal_reference ctx0 "/tmp/" "s1" "http://x/b" none regC7
      ⟨[], []⟩ [("href", "http://x/p")] nodeA7 (by decide) (by decide) (some dlAlways)⟩

/-- **C10 (amended)**: the registry scan does include the card being
cleaned, so a link resolving to the card's own origin url is rewritten
to the internal reference `cards/<own id>` PROVIDED the card is the
first matching node in registry order (an earlier registry node
matching the same address wins otherwise, as the counterexample shows);
no attachment handling or downloader call happens for such a link. -/
theorem processLink_self_reference (ctx : PyCtx) (folder syncId : String)
    (cmp : Option Cmp) (nodes : Registry) (st : CEState) (card : SyncNode)
    (attrs : List (String × String))
    (hhref : (alistGet attrs "href").getD "" ≠ "")
    (hfirst : linkMatch cmp nodes
      (ctx.urljoin card.url ((alistGet attrs "href").getD "")) = some card) :
    ∀ dl : Option DL,
      processLink ctx folder syncId card.url dl cmp nodes st attrs =
        Except.ok (alistSet attrs "href" ("cards/" ++ card.id), st, true) := by
  intro dl
  simp only [processLink, hfirst, if_neg hhref]

/-- Witness for the amended C10: a card alone in its registry whose link
resolves to its own url has the link rewritten to its own internal
reference. -/
theorem processLink_self_reference_witness :
    ((alistGet [("href", "http://x/p")] "href").getD "" ≠ "") ∧
    linkMatch none [nodeB10]
      (ctx0.urljoin nodeB10.url ((alistGet [("href", "http://x/p")] "href").getD ""))
      = some nodeB10 ∧
    processLink ctx0 "/tmp/" "s1" nodeB10.url (some dlAlways) none [nodeB10]
      ⟨[], []⟩ [("href", "http://x/p")] =
      Except.ok (alistSet [("href", "http://x/p")] "href" ("cards/" ++ nodeB10.id),
        ⟨[], []⟩, true) :=
  ⟨by decide, by decide,
    processLink_self_reference ctx0 "/tmp/" "s1" none [nodeB10]
      ⟨[], []⟩ nodeB10 [("href", "http://x/p")] (by decide) (by decide) (some dlAlways)⟩

/-- **C5 counterexample**: a node typed BOARD_GROUP with content and no
children entering `Sync.zip` is reclassified CARD by `assign_types` (a
childless, parentless, contentful node becomes a card) before the
repairer runs, so the finalize call leaves it with NO children and
synthesizes nothing: against the full finalize the claim fails. -/
theorem zip_board_group_scenario_counterexample :
    typeOf (finalNodes (zipModel ctx0 "/tmp/" "s1" regC5 none true none false 30)) "g"
      = CARD ∧
    nodeChildren
      (finalNodes (zipModel ctx0 "/tmp/" "s1" regC5 none true none false 30)) "g"
      = [] ∧
    (finalNodes (zipModel ctx0 "/tmp/" "s1" regC5 none true none false 30)).length
      = 1 := by
  exact ⟨by decide, by decide, by decide⟩

/-- **C4 counterexample**: a second upsert of the node `a` carrying a
non-empty description leaves the stored description empty — `Sync.node`
never merges `desc` into an existing node — refuting the claim that
every non-empty incoming field overwrites the stored one. -/
theorem syncNode_desc_not_merged :
    ((findNode (syncNode ctx0 regC4 "a" "" "" "" "newdesc" [] none true).1 "a").map
      (fun n => n.desc)).getD "" = "" ∧
    ("" : String) ≠ "newdesc" := by
  exact ⟨by decide, by decide⟩

set_option maxHeartbeats 2000000 in
/-- **C4 (amended)**: calling `Sync.node` again with the id of an
existing node returns that node's id and appends nothing (ids stay
unique); non-empty incoming `url`, `title`, `content`, `tags` and a
supplied `type` overwrite the stored fields — the title after
normalization, the content after `clean_up_html` — while empty/falsy
incoming values leave the stored fields unchanged.  The incoming
description, however, empty or not, is never merged: the stored `desc`
always survives. -/
theorem syncNode_merge_existing (ctx : PyCtx) (g : Registry)
    (id url title content desc : String) (tags : List String)
    (ty : Option NodeType) (n : SyncNode)
    (hid : id ≠ "") (hn : findNode g id = some n) :
    (syncNode ctx g id url title content desc tags ty true).2 = id ∧
    (syncNode ctx g id url title content desc tags ty true).1.length = g.length ∧
    findNode (syncNode ctx g id url title content desc tags ty true).1 id =
      some { n with
        url := if url ≠ "" then url else n.url,
        title := if title ≠ "" ∧ truncTitle title ≠ "" then truncTitle title
          else n.title,
        content := if content ≠ "" then clean_up_html content else n.content,
        type := match ty with | some t => t | none => n.type,
        tags := if tags ≠ [] then tags else n.tags } := by
  have hcond : ¬(url ≠ "" ∧ id = "") := fun h => hid h.2
  have hfu : ∀ m : SyncNode, ({ m with url := url } : SyncNode).id = m.id :=
    fun _ => rfl
  have hft : ∀ m : SyncNode,
      ({ m with title := if title ≠ "" then truncTitle title else title } :
        SyncNode).id = m.id := fun _ => rfl
  have hfc : ∀ m : SyncNode,
      ({ m with content := clean_up_html content } : SyncNode).id = m.id :=
    fun _ => rfl
  have hftg : ∀ m : SyncNode, ({ m with tags := tags } : SyncNode).id = m.id :=
    fun _ => rfl
  refine ⟨by simp only [syncNode, if_neg hcond], ?_, ?_⟩
  · simp only [syncNode, if_neg hcond, hn]
    cases ty <;> split_ifs <;> simp [updateNode_length]
  · cases ty with
    | none =>
      simp only [syncNode, if_neg hcond, hn, if_true]
      rw [findNode_condUpdate _ _ _ _ hftg,
        findNode_condUpdate _ _ _ _ hfc,
        findNode_condUpdate _ _ _ _ hft,
        findNode_condUpdate _ _ _ _ hfu, hn]
      by_cases hu : url = "" <;> by_cases ht : title = "" <;>
        by_cases hc2 : content = "" <;> by_cases htg : tags = [] <;>
        by_cases htt : truncTitle title = "" <;>
        simp_all
    | some t =>
      have hfty : ∀ m : SyncNode, ({ m with type := t } : SyncNode).id = m.id :=
        fun _ => rfl
      simp only [syncNode, if_neg hcond, hn, if_true]
      rw [findNode_condUpdate _ _ _ _ hftg,
        findNode_updateNode_self _ _ _ hfty,
        findNode_condUpdate _ _ _ _ hfc,
        findNode_condUpdate _ _ _ _ hft,
        findNode_condUpdate _ _ _ _ hfu, hn]
      by_cases hu : url = "" <;> by_cases ht : title = "" <;>
        by_cases hc2 : content = "" <;> by_cases htg : tags = [] <;>
        by_cases htt : truncTitle title = "" <;>
        simp_all

/-! ## `Sync.node` on a fresh id, and invariance of other entries
(supporting lemmas for C5) -/

theorem syncNode_preserves_other (ctx : PyCtx) (g : Registry)
    (rid url title content desc : String) (tags : List String)
    (ty : Option NodeType) (id2 : String) (hrid : rid ≠ "") (hne : id2 ≠ rid) :
    findNode (syncNode ctx g rid url title content desc tags ty true).1 id2 =
      findNode g id2 := by
  have hcond : ¬(url ≠ "" ∧ rid = "") := fun h => hrid h.2
  have hfu : ∀ m : SyncNode, ({ m with url := url } : SyncNode).id = m.id :=
    fun _ => rfl
  have hft : ∀ m : SyncNode,
      ({ m with title := if title ≠ "" then truncTitle title else title } :
        SyncNode).id = m.id := fun _ => rfl
  have hfc : ∀ m : SyncNode,
      ({ m with content := clean_up_html content } : SyncNode).id = m.id :=
    fun _ => rfl
  have hftg : ∀ m : SyncNode, ({ m with tags := tags } : SyncNode).id = m.id :=
    fun _ => rfl
  have hsm : rid ≠ id2 := Ne.symm hne
  cases ty with
  | none =>
    cases hex : findNode g rid with
    | some v =>
      simp only [syncNode, if_neg hcond, hex, if_true]
      rw [findNode_condUpdate_ne _ _ _ _ _ hftg hsm,
        findNode_condUpdate_ne _ _ _ _ _ hfc hsm,
        findNode_condUpdate_ne _ _ _ _ _ hft hsm,
        findNode_condUpdate_ne _ _ _ _ _ hfu hsm]
    | none =>
      simp only [syncNode, if_neg hcond, hex, if_true]
      rw [findNode_condUpdate_ne _ _ _ _ _ hftg hsm,
        findNode_condUpdate_ne _ _ _ _ _ hfc hsm,
        findNode_condUpdate_ne _ _ _ _ _ hft hsm,
        findNode_condUpdate_ne _ _ _ _ _ hfu hsm,
        findNode_append_ne g _ id2 hsm]
  | some t =>
    have hfty : ∀ m : SyncNode, ({ m with type := t } : SyncNode).id = m.id :=
      fun _ => rfl
    cases hex : findNode g rid with
    | some v =>
      simp only [syncNode, if_neg hcond, hex, if_true]
      rw [findNode_condUpdate_ne _ _ _ _ _ hftg hsm,
        findNode_updateNode_ne _ _ _ _ hfty hsm,
        findNode_condUpdate_ne _ _ _ _ _ hfc hsm,
        findNode_condUpdate_ne _ _ _ _ _ hft hsm,
        findNode_condUpdate_ne _ _ _ _ _ hfu hsm]
    | none =>
      simp only [syncNode, if_neg hcond, hex, if_true]
      rw [findNode_condUpdate_ne _ _ _ _ _ hftg hsm,
        findNode_updateNode_ne _ _ _ _ hfty hsm,
        findNode_condUpdate_ne _ _ _ _ _ hfc hsm,
        findNode_condUpdate_ne _ _ _ _ _ hft hsm,
        findNode_condUpdate_ne _ _ _ _ _ hfu hsm,
        findNode_append_ne g _ id2 hsm]

set_option maxHeartbeats 2000000 in
theorem syncNode_create (ctx : PyCtx) (g : Registry)
    (rid url title content desc : String) (tags : List String)
    (ty : Option NodeType) (hrid : rid ≠ "") (hnone : findNode g rid = none) :
    findNode (syncNode ctx g rid url title content desc tags ty true).1 rid =
      some { id := rid, url := url,
             title := if title ≠ "" then truncTitle title else "",
             desc := desc,
             content := if content ≠ "" then clean_up_html content else "",
             children := [], parents := [],
             type := match ty with | some t => t | none => NONE,
             tags := tags } := by
  have hcond : ¬(url ≠ "" ∧ rid = "") := fun h => hrid h.2
  have hfu : ∀ m : SyncNode, ({ m with url := url } : SyncNode).id = m.id :=
    fun _ => rfl
  have hft : ∀ m : SyncNode,
      ({ m with title := if title ≠ "" then truncTitle title else title } :
        SyncNode).id = m.id := fun _ => rfl
  have hfc : ∀ m : SyncNode,
      ({ m with content := clean_up_html content } : SyncNode).id = m.id :=
    fun _ => rfl
  have hftg : ∀ m : SyncNode, ({ m with tags := tags } : SyncNode).id = m.id :=
    fun _ => rfl
  cases ty with
  | none =>
    simp only [syncNode, if_neg hcond, hnone, if_true]
    rw [findNode_condUpdate _ _ _ _ hftg,
      findNode_condUpdate _ _ _ _ hfc,
      findNode_condUpdate _ _ _ _ hft,
      findNode_condUpdate _ _ _ _ hfu,
      findNode_append_left g _ rid hnone]
    by_cases hu : url = "" <;> by_cases ht : title = "" <;>
      by_cases hc2 : content = "" <;> by_cases htg : tags = [] <;>
      by_cases htt : truncTitle title = "" <;>
      simp_all
  | some t =>
    have hfty : ∀ m : SyncNode, ({ m with type := t } : SyncNode).id = m.id :=
      fun _ => rfl
    simp only [syncNode, if_neg hcond, hnone, if_true]
    rw [findNode_condUpdate _ _ _ _ hftg,
      findNode_updateNode_self _ _ _ hfty,
      findNode_condUpdate _ _ _ _ hfc,
      findNode_condUpdate _ _ _ _ hft,
      findNode_condUpdate _ _ _ _ hfu,
      findNode_append_left g _ rid hnone]
    by_cases hu : url = "" <;> by_cases ht : title = "" <;>
      by_cases hc2 : content = "" <;> by_cases htg : tags = [] <;>
      by_cases htt : truncTitle title = "" <;>
      simp_all

set_option maxHeartbeats 2000000 in
/-- **C5 (amended)**: the claimed structure is what the Repairer stage
produces, not what a full finalize on a pre-typed group produces (the
counterexample shows classification retypes such a node first).  For
every registry and every node `G` in it typed BOARD_GROUP with non-empty
content, no children and no parents at the time `insert_nodes` visits
it, with the synthetic ids `<id>_content_board` and `<id>_content` not
yet in use, the step succeeds and gives `G` exactly one child: a BOARD
with id `<id>_content_board` whose single child is a CARD with id
`<id>_content` carrying `clean_up_html` of the node's content (equal to
the stored content whenever that content is a cleanup fixed point),
while the node's own content is left untouched. -/
theorem insertNodes_board_group_repair (ctx : PyCtx) (fuel : Nat) (g : Registry)
    (gid : String) (pid : Option String) (n : SyncNode)
    (hg : findNode g gid = some n)
    (htype : n.type = BOARD_GROUP)
    (hcontent : n.content ≠ "")
    (hchildren : n.children = [])
    (hparents : n.parents = [])
    (hfresh1 : findNode g (gid ++ "_content_board") = none)
    (hfresh2 : findNode g (gid ++ "_content") = none) :
    stepOk (insertNodesStep ctx (fuel + 1) g gid pid) = true ∧
    nodeChildren (stepRegistry (insertNodesStep ctx (fuel + 1) g gid pid)) gid =
      [gid ++ "_content_board"] ∧
    typeOf (stepRegistry (insertNodesStep ctx (fuel + 1) g gid pid))
      (gid ++ "_content_board") = BOARD ∧
    nodeChildren (stepRegistry (insertNodesStep ctx (fuel + 1) g gid pid))
      (gid ++ "_content_board") = [gid ++ "_content"] ∧
    typeOf (stepRegistry (insertNodesStep ctx (fuel + 1) g gid pid))
      (gid ++ "_content") = CARD ∧
    nodeContent (stepRegistry (insertNodesStep ctx (fuel + 1) g gid pid))
      (gid ++ "_content") = clean_up_html n.content ∧
    nodeContent (stepRegistry (insertNodesStep ctx (fuel + 1) g gid pid)) gid =
      n.content := by
  have hnid : n.id = gid := findNode_some_id g gid n hg
  have hbE : gid ++ "_content_board" ≠ "" := strAppend_ne_empty _ _ (by decide)
  have hcE : gid ++ "_content" ≠ "" := strAppend_ne_empty _ _ (by decide)
  have hbg : gid ++ "_content_board" ≠ gid := strAppend_ne_self _ _ (by decide)
  have hcg : gid ++ "_content" ≠ gid := strAppend_ne_self _ _ (by decide)
  have hbc : gid ++ "_content_board" ≠ gid ++ "_content" :=
    strAppend_left_ne _ _ _ (by decide)
  have hgb : gid ≠ gid ++ "_content_board" := fun h => hbg h.symm
  have hgc : gid ≠ gid ++ "_content" := fun h => hcg h.symm
  have hcb : gid ++ "_content" ≠ gid ++ "_content_board" := fun h => hbc h.symm
  have htC : n.title ++ " Content" ≠ "" := strAppend_ne_empty _ _ (by decide)
  simp only [insertNodesStep, hg, hnid]
  rw [if_pos (⟨hcontent, htype⟩ : n.content ≠ "" ∧ n.type = BOARD_GROUP)]
  generalize hG2 : (syncNode ctx g (gid ++ "_content_board") n.url
    (n.title ++ " Content") "" "" [] (some BOARD) true).1 = G2
  have h2gid : findNode G2 gid = some n :=
    hG2 ▸ (syncNode_preserves_other ctx g (gid ++ "_content_board") n.url
      (n.title ++ " Content") "" "" [] (some BOARD) gid hbE hgb).trans hg
  have h2cid : findNode G2 (gid ++ "_content") = none :=
    hG2 ▸ (syncNode_preserves_other ctx g (gid ++ "_content_board") n.url
      (n.title ++ " Content") "" "" [] (some BOARD) (gid ++ "_content")
      hbE hcb).trans hfresh2
  have h2bid := hG2 ▸ syncNode_create ctx g (gid ++ "_content_board") n.url
    (n.title ++ " Content") "" "" [] (some BOARD) hbE hfresh1
  have hanc1 : pyAncestors G2 n (fuel + 1) = some [] :=
    pyAncestors_nil G2 n (fuel + 1) hparents
  have hadd1 := add_child_fresh_first G2 gid (gid ++ "_content_board")
    (fuel + 1) n _ [] h2gid h2bid hanc1 (by simp) (by simp [hchildren])
  rw [hadd1]
  simp only [PyM_bind_ok]
  have hfPar : ∀ m : SyncNode,
      ({ m with parents := m.parents ++ [gid] } : SyncNode).id = m.id :=
    fun _ => rfl
  have hfCh : ∀ m : SyncNode,
      ({ m with children := (gid ++ "_content_board") :: m.children } :
        SyncNode).id = m.id := fun _ => rfl
  generalize hG3 : updateNode (updateNode G2 (gid ++ "_content_board")
    (fun m => { m with parents := m.parents ++ [gid] })) gid
    (fun m => { m with children := (gid ++ "_content_board") :: m.children }) = G3
  have h3gid : findNode G3 gid = some { n with
      children := [gid ++ "_content_board"] } := by
    rw [← hG3, findNode_updateNode_self _ _ _ hfCh,
      findNode_updateNode_ne _ _ _ _ hfPar hbg, h2gid]
    simp [hchildren]
  have h3bid : findNode G3 (gid ++ "_content_board") = some
      { id := gid ++ "_content_board", url := n.url,
        title := truncTitle (n.title ++ " Content"),
        desc := "", content := "", children := [], parents := [gid],
        type := BOARD, tags := [] } := by
    rw [← hG3, findNode_updateNode_ne _ _ _ _ hfCh hgb,
      findNode_updateNode_self _ _ _ hfPar, h2bid]
    simp [htC]
  have h3cid : findNode G3 (gid ++ "_content") = none := by
    rw [← hG3, findNode_updateNode_ne _ _ _ _ hfCh hgc,
      findNode_updateNode_ne _ _ _ _ hfPar hbc]
    exact h2cid
  generalize hG4 : (syncNode ctx G3 (gid ++ "_content") n.url n.title
    n.content "" [] (some CARD) true).1 = G4
  have h4gid : findNode G4 gid = some { n with
      children := [gid ++ "_content_board"] } :=
    hG4 ▸ (syncNode_preserves_other ctx G3 (gid ++ "_content") n.url n.title
      n.content "" [] (some CARD) gid hcE hgc).trans h3gid
  have h4bid := hG4 ▸ (syncNode_preserves_other ctx G3 (gid ++ "_content")
    n.url n.title n.content "" [] (some CARD) (gid ++ "_content_board")
    hcE hbc).trans h3bid
  have h4cid := hG4 ▸ syncNode_create ctx G3 (gid ++ "_content") n.url n.title
    n.content "" [] (some CARD) hcE h3cid
  have hpO : parentsOf G4 gid = [] := by
    simp [parentsOf, h4gid, hparents]
  have hadd2 := add_child_fresh_last G4 (gid ++ "_content_board")
    (gid ++ "_content") (fuel + 1) _ _ [gid] h4bid h4cid
    (pyAncestors_single _ _ _ _ rfl hpO) (by simp [hcg]) (by simp)
  rw [hadd2]
  have hfPar2 : ∀ m : SyncNode,
      ({ m with parents := m.parents ++ [gid ++ "_content_board"] } :
        SyncNode).id = m.id := fun _ => rfl
  have hfCh2 : ∀ m : SyncNode,
      ({ m with children := m.children ++ [gid ++ "_content"] } :
        SyncNode).id = m.id := fun _ => rfl
  simp only [stepOk, stepRegistry]
  refine ⟨trivial, ?_, ?_, ?_, ?_, ?_, ?_⟩
  · rw [nodeChildren, findNode_updateNode_ne _ _ _ _ hfCh2 hbg,
      findNode_updateNode_ne _ _ _ _ hfPar2 hcg, h4gid]
    rfl
  · rw [typeOf, findNode_updateNode_self _ _ _ hfCh2,
      findNode_updateNode_ne _ _ _ _ hfPar2 hcb, h4bid]
    rfl
  · rw [nodeChildren, findNode_updateNode_self _ _ _ hfCh2,
      findNode_updateNode_ne _ _ _ _ hfPar2 hcb, h4bid]
    rfl
  · rw [typeOf, findNode_updateNode_ne _ _ _ _ hfCh2 hbc,
      findNode_updateNode_self _ _ _ hfPar2, h4cid]
    rfl
  · rw [nodeContent, findNode_updateNode_ne _ _ _ _ hfCh2 hbc,
      findNode_updateNode_self _ _ _ hfPar2, h4cid]
    simp [hcontent]
  · rw [nodeContent, findNode_updateNode_ne _ _ _ _ hfCh2 hbg,
      findNode_updateNode_ne _ _ _ _ hfPar2 hcg, h4gid]
    rfl

/-- Witness for the amended C5: the board group `g` of `regW5`, sitting
behind an unrelated node, satisfies every hypothesis, and the repair
step builds the synthetic board-and-card pair under it. -/
theorem insertNodes_board_group_repair_witness :
    (findNode regW5 "g" = some (bgNode "g" "u" "T" "D" "<p>x</p>" []) ∧
      (bgNode "g" "u" "T" "D" "<p>x</p>" []).type = BOARD_GROUP ∧
      (bgNode "g" "u" "T" "D" "<p>x</p>" []).content ≠ "" ∧
      (bgNode "g" "u" "T" "D" "<p>x</p>" []).children = [] ∧
      (bgNode "g" "u" "T" "D" "<p>x</p>" []).parents = [] ∧
      findNode regW5 ("g" ++ "_content_board") = none ∧
      findNode regW5 ("g" ++ "_content") = none) ∧
    (stepOk (insertNodesStep ctx0 (9 + 1) regW5 "g" none) = true ∧
      nodeChildren (stepRegistry (insertNodesStep ctx0 (9 + 1) regW5 "g" none))
        "g" = ["g" ++ "_content_board"] ∧
      typeOf (stepRegistry (insertNodesStep ctx0 (9 + 1) regW5 "g" none))
        ("g" ++ "_content_board") = BOARD ∧
      nodeChildren (stepRegistry (insertNodesStep ctx0 (9 + 1) regW5 "g" none))
        ("g" ++ "_content_board") = ["g" ++ "_content"] ∧
      typeOf (stepRegistry (insertNodesStep ctx0 (9 + 1) regW5 "g" none))
        ("g" ++ "_content") = CARD ∧
      nodeContent (stepRegistry (insertNodesStep ctx0 (9 + 1) regW5 "g" none))
        ("g" ++ "_content") =
          clean_up_html (bgNode "g" "u" "T" "D" "<p>x</p>" []).content ∧
      nodeContent (stepRegistry (insertNodesStep ctx0 (9 + 1) regW5 "g" none))
        "g" = (bgNode "g" "u" "T" "D" "<p>x</p>" []).content) :=
  ⟨⟨by decide, by decide, by decide, by decide, by decide, by decide, by decide⟩,
    insertNodes_board_group_repair ctx0 9 regW5 "g" none
      (bgNode "g" "u" "T" "D" "<p>x</p>" []) (by decide) (by decide) (by decide)
      (by decide) (by decide) (by decide) (by decide)⟩

/-- Witness for the amended C4: a second upsert of `a` carrying every
field; url, title, content, tags and type are merged, the description is
not. -/
theorem syncNode_merge_existing_witness :
    (("a" : String) ≠ "") ∧ findNode regC4 "a" = some nC4 ∧
    ((syncNode ctx0 regC4 "a" "http://u" "T" "hi" "D" ["t1"] (some CARD) true).2
        = "a" ∧
      (syncNode ctx0 regC4 "a" "http://u" "T" "hi" "D" ["t1"]
        (some CARD) true).1.length = regC4.length ∧
      findNode (syncNode ctx0 regC4 "a" "http://u" "T" "hi" "D" ["t1"]
          (some CARD) true).1 "a" =
        some { nC4 with
          url := if ("http://u" : String) ≠ "" then "http://u" else nC4.url,
          title := if ("T" : String) ≠ "" ∧ truncTitle "T" ≠ "" then truncTitle "T"
            else nC4.title,
          content := if ("hi" : String) ≠ "" then clean_up_html "hi" else nC4.content,
          type := match (some CARD : Option NodeType) with
            | some t => t
            | none => nC4.type,
          tags := if (["t1"] : List String) ≠ [] then ["t1"] else nC4.tags }) :=
  ⟨by decide, by decide,
    syncNode_merge_existing ctx0 regC4 "a" "http://u" "T" "hi" "D" ["t1"]
      (some CARD) nC4 (by decide) (by decide)⟩

/-! ## The normalization pass without a downloader never raises and
never touches the graph's structure (supporting lemmas for C6) -/

theorem checkElement_none_ok (ctx : PyCtx) (folder syncId selfUrl : String)
    (st : CEState) (attrs : List (String × String)) (attr : String) :
    ∃ out, checkElement ctx folder syncId selfUrl none st attrs attr =
      Except.ok out := by
  cases h : checkElement ctx folder syncId selfUrl none st attrs attr with
  | ok out => exact ⟨out, rfl⟩
  | error e =>
    exfalso
    simp only [checkElement] at h
    repeat' split at h
    all_goals simp at h

theorem srcPassL_none_ok (ctx : PyCtx) (folder syncId selfUrl : String) :
    ∀ (fuel : Nat) (st : CEState) (upd : Bool) (l : List Html),
    ∃ out, srcPassL ctx folder syncId selfUrl none fuel st upd l = Except.ok out := by
  intro fuel
  induction fuel with
  | zero => intro st upd l; exact ⟨(l, st, upd), by simp [srcPassL]⟩
  | succ f ih =>
    intro st upd l
    cases l with
    | nil => exact ⟨([], st, upd), by simp [srcPassL]⟩
    | cons h t =>
      cases h with
      | text s =>
        obtain ⟨o, ho⟩ := ih st upd t
        exact ⟨(Html.text s :: o.1, o.2),
          by simp [srcPassL, ho, Bind.bind, Except.bind, pure, Except.pure]⟩
      | tag name attrs children =>
        by_cases hsrc : alistHas attrs "src" = true
        · obtain ⟨⟨a2, s2, ch⟩, hce⟩ :=
            checkElement_none_ok ctx folder syncId selfUrl st attrs "src"
          obtain ⟨⟨c2, s3, u3⟩, hch⟩ := ih s2 (upd || ch) children
          obtain ⟨⟨t2, s4, u4⟩, ht⟩ := ih s3 u3 t
          exact ⟨(Html.tag name a2 c2 :: t2, s4, u4),
            by simp [srcPassL, hsrc, hce, hch, ht, Bind.bind, Except.bind, pure,
              Except.pure]⟩
        · obtain ⟨⟨c2, s3, u3⟩, hch⟩ := ih st upd children
          obtain ⟨⟨t2, s4, u4⟩, ht⟩ := ih s3 u3 t
          exact ⟨(Html.tag name attrs c2 :: t2, s4, u4),
            by simp [srcPassL, hsrc, hch, ht, Bind.bind, Except.bind, pure,
              Except.pure]⟩

theorem processLink_none_ok (ctx : PyCtx) (folder syncId selfUrl : String)
    (cmp : Option Cmp) (nodes : Registry) (st : CEState)
    (attrs : List (String × String)) :
    ∃ out, processLink ctx folder syncId selfUrl none cmp nodes st attrs =
      Except.ok out := by
  cases h : processLink ctx folder syncId selfUrl none cmp nodes st attrs with
  | ok out => exact ⟨out, rfl⟩
  | error e =>
    exfalso
    obtain ⟨out2, hok⟩ := checkElement_none_ok ctx folder syncId selfUrl st attrs "href"
    simp only [processLink, hok] at h
    repeat' split at h
    all_goals simp at h

theorem linkPassL_none_ok (ctx : PyCtx) (folder syncId selfUrl : String)
    (cmp : Option Cmp) (nodes : Registry) :
    ∀ (fuel : Nat) (st : CEState) (upd : Bool) (l : List Html),
    ∃ out, linkPassL ctx folder syncId selfUrl none cmp nodes fuel st upd l =
      Except.ok out := by
  intro fuel
  induction fuel with
  | zero => intro st upd l; exact ⟨(l, st, upd), by simp [linkPassL]⟩
  | succ f ih =>
    intro st upd l
    cases l with
    | nil => exact ⟨([], st, upd), by simp [linkPassL]⟩
    | cons h t =>
      cases h with
      | text s =>
        obtain ⟨o, ho⟩ := ih st upd t
        exact ⟨(Html.text s :: o.1, o.2),
          by simp [linkPassL, ho, Bind.bind, Except.bind, pure, Except.pure]⟩
      | tag name attrs children =>
        by_cases hl : (name = "a" ∧ alistHas attrs "href" = true)
        · obtain ⟨⟨a2, s2, ch⟩, hce⟩ :=
            processLink_none_ok ctx folder syncId selfUrl cmp nodes st attrs
          obtain ⟨⟨c2, s3, u3⟩, hch⟩ := ih s2 (upd || ch) children
          obtain ⟨⟨t2, s4, u4⟩, ht⟩ := ih s3 u3 t
          exact ⟨(Html.tag name a2 c2 :: t2, s4, u4),
            by simp [linkPassL, hl, hce, hch, ht, Bind.bind, Except.bind, pure,
              Except.pure]⟩
        · obtain ⟨⟨c2, s3, u3⟩, hch⟩ := ih st upd children
          obtain ⟨⟨t2, s4, u4⟩, ht⟩ := ih s3 u3 t
          exact ⟨(Html.tag name attrs c2 :: t2, s4, u4),
            by simp [linkPassL, hl, hch, ht, Bind.bind, Except.bind, pure,
              Except.pure]⟩

theorem typeOf_updateNode_content (g : Registry) (nid s id : String) :
    typeOf (updateNode g nid (fun m => { m with content := s })) id = typeOf g id := by
  by_cases h : id = nid
  · subst h
    rw [typeOf, findNode_updateNode_self g id
      (fun m => { m with content := s }) (fun _ => rfl), typeOf]
    cases findNode g id <;> rfl
  · rw [typeOf, findNode_updateNode_ne g id nid
      (fun m => { m with content := s }) (fun _ => rfl) (Ne.symm h), typeOf]

theorem nodeChildren_updateNode_content (g : Registry) (nid s id : String) :
    nodeChildren (updateNode g nid (fun m => { m with content := s })) id =
      nodeChildren g id := by
  by_cases h : id = nid
  · subst h
    rw [nodeChildren, findNode_updateNode_self g id
      (fun m => { m with content := s }) (fun _ => rfl), nodeChildren]
    cases findNode g id <;> rfl
  · rw [nodeChildren, findNode_updateNode_ne g id nid
      (fun m => { m with content := s }) (fun _ => rfl) (Ne.symm h), nodeChildren]

theorem html_cleanup_none_shape (ctx : PyCtx) (folder syncId : String)
    (conv : Bool) (cmp : Option Cmp) (g : Registry)
    (res : List (String × String)) (nid : String) :
    ∃ g2 res2, html_cleanup ctx folder syncId none conv cmp g res nid =
        Except.ok (g2, res2) ∧
      (∀ id, typeOf g2 id = typeOf g id) ∧
      (∀ id, nodeChildren g2 id = nodeChildren g id) ∧
      g2.length = g.length := by
  unfold html_cleanup
  split
  · exact ⟨g, res, rfl, fun _ => rfl, fun _ => rfl, rfl⟩
  · rename_i n hn
    split
    · exact ⟨g, res, rfl, fun _ => rfl, fun _ => rfl, rfl⟩
    · obtain ⟨⟨d2, s2, u2⟩, hsrc⟩ :=
        srcPassL_none_ok ctx folder syncId n.url (docFuel n.content)
          ⟨[], res⟩ false (parseHtml n.content)
      obtain ⟨⟨d3, s3, u3⟩, hlink⟩ :=
        linkPassL_none_ok ctx folder syncId n.url cmp g (docFuel n.content) s2 u2 d2
      dsimp only
      rw [hsrc]
      simp only [Bind.bind, Except.bind]
      rw [hlink]
      by_cases hu : u3 = true
      · refine ⟨updateNode g nid
            (fun m => { m with content := serializeL (docFuel n.content) d3 }),
          s3.resources, by simp [hu, pure, Except.pure], ?_, ?_, ?_⟩
        · intro id
          exact typeOf_updateNode_content g nid _ id
        · intro id
          exact nodeChildren_updateNode_content g nid _ id
        · exact updateNode_length g nid _
      · refine ⟨g, s3.resources, by simp [hu, pure, Except.pure],
          fun _ => rfl, fun _ => rfl, rfl⟩

theorem cleanupAll_none_shape (ctx : PyCtx) (folder syncId : String)
    (conv : Bool) (cmp : Option Cmp) :
    ∀ (ids : List String) (g : Registry) (res : List (String × String)),
    ∃ g2 res2, cleanupAll ctx folder syncId none conv cmp ids g res =
        some (Except.ok (g2, res2)) ∧
      (∀ id, typeOf g2 id = typeOf g id) ∧
      (∀ id, nodeChildren g2 id = nodeChildren g id) ∧
      g2.length = g.length := by
  intro ids
  induction ids with
  | nil => intro g res; exact ⟨g, res, rfl, fun _ => rfl, fun _ => rfl, rfl⟩
  | cons nid rest ih =>
    intro g res
    obtain ⟨ga, ra, ha, hat, hac, hal⟩ :=
      html_cleanup_none_shape ctx folder syncId conv cmp g res nid
    obtain ⟨gb, rb, hb, hbt, hbc, hbl⟩ := ih ga ra
    refine ⟨gb, rb, ?_, ?_, ?_, ?_⟩
    · simp [cleanupAll, ha, hb]
    · intro id
      rw [hbt id, hat id]
    · intro id
      rw [hbc id, hac id]
    · rw [hbl, hal]

set_option maxHeartbeats 4000000 in
theorem assignPass_chain (ctx : PyCtx) (burl ccontent : String) :
    traverseRoots ctx (assignTypesCB false) true 12 (chainReg burl ccontent) 0 =
      some (Except.ok (chainTyped burl ccontent)) := by
  simp [traverseRoots, traverseList, assignTypesCB, assignTypes, syncNode,
    findNode, List.find?, updateNode, typeOf, chainReg, chainTyped,
    PyM_bind_ok, PyM_pure_eq, parentsOf]

set_option maxHeartbeats 4000000 in
theorem insertPass_chain (ctx : PyCtx) (burl ccontent : String) :
    traverseRoots ctx (insertNodesCB ctx 12) false 12 (chainTyped burl ccontent) 0 =
      some (Except.ok (chainTyped burl ccontent)) := by
  simp [traverseRoots, traverseList, insertNodesCB, insertNodesStep, syncNode,
    findNode, List.find?, updateNode, typeOf, chainTyped,
    PyM_bind_ok, PyM_pure_eq, parentsOf]

set_option maxHeartbeats 4000000 in
/-- **C6**: for the three-node chain root `r` (no content) with child `b`
(url set, no content) with grandchild `c` (content set, no children),
`Sync.zip` under Policy A ("favor boards", the default branch) completes
and yields `r` typed BOARD_GROUP (board promoted by the depth-1 rule on
`b`), `b` typed BOARD, `c` typed CARD; `c` is still the sole child of
`b`, and no synthetic node is inserted anywhere: the registry still has
exactly three nodes.  Holds for every url and content value, every
collaborator context and link comparator, with no downloader. -/
theorem zip_policyA_three_level_chain (ctx : PyCtx) (folder syncId : String)
    (cmp : Option Cmp) (burl ccontent : String) :
    pipelineCompleted
      (zipModel ctx folder syncId (chainReg burl ccontent) none true cmp false 12)
      = true ∧
    typeOf (finalNodes
      (zipModel ctx folder syncId (chainReg burl ccontent) none true cmp false 12))
      "r" = BOARD_GROUP ∧
    typeOf (finalNodes
      (zipModel ctx folder syncId (chainReg burl ccontent) none true cmp false 12))
      "b" = BOARD ∧
    typeOf (finalNodes
      (zipModel ctx folder syncId (chainReg burl ccontent) none true cmp false 12))
      "c" = CARD ∧
    nodeChildren (finalNodes
      (zipModel ctx folder syncId (chainReg burl ccontent) none true cmp false 12))
      "b" = ["c"] ∧
    (finalNodes
      (zipModel ctx folder syncId (chainReg burl ccontent) none true cmp false 12)).length
      = 3 := by
  obtain ⟨g2, res2, hclean, hty, hch, hlen⟩ :=
    cleanupAll_none_shape ctx folder syncId true cmp
      ((chainTyped burl ccontent).map (fun n => n.id)) (chainTyped burl ccontent) []
  have hz : zipModel ctx folder syncId (chainReg burl ccontent) none true cmp false 12 =
      some (Except.ok (g2, res2)) := by
    simp only [zipModel, assignPass_chain, PyM_bind_ok, insertPass_chain]
    exact hclean
  rw [hz]
  refine ⟨rfl, ?_, ?_, ?_, ?_, ?_⟩
  · simp only [finalNodes]
    rw [hty "r"]
    simp [chainTyped, typeOf, findNode, List.find?]
  · simp only [finalNodes]
    rw [hty "b"]
    simp [chainTyped, typeOf, findNode, List.find?]
  · simp only [finalNodes]
    rw [hty "c"]
    simp [chainTyped, typeOf, findNode, List.find?]
  · simp only [finalNodes]
    rw [hch "b"]
    simp [chainTyped, nodeChildren, findNode, List.find?]
  · simp only [finalNodes]
    rw [hlen]
    simp [chainTyped]

end GuruSync
